import Mathlib

/-!
Verification of the commit/diff analysis and classification engine of the
AI changelog generator (source: src/lib/ai-changelog-generator.js and
src/lib/ai-provider.js).

The JavaScript code is shallowly embedded: JS strings are Lean `String`
(logically a list of `Char`), JS numbers that are used as integers are `Nat`,
JS objects are Lean structures (fields that the code may leave `undefined` or
`null` are `Option`-typed), and fallible external collaborators (git
subprocess calls, the summarization service, `JSON.parse` of the service
response) are modelled as explicit oracle inputs.  The classification
functions themselves are pure and total in the source and are translated
directly.

JS regular-expression tests that the source applies to diff text are
translated into explicit character-list scanners (`scanPos`, `afterWsPlus`,
...) that implement the same matching semantics for the concrete patterns
used by the source.
-/

/-! ### JS string primitives -/

/-- Character class of JavaScript whitespace (the ASCII part of `\s`). -/
def isJsWs (c : Char) : Bool :=
  c = ' ' || c = '\t' || c = '\n' || c = '\r' || c = '\x0b' || c = '\x0c'

/-- JS word character class `\w` = `[A-Za-z0-9_]`. -/
def isWordChar (c : Char) : Bool :=
  ('a' ≤ c && c ≤ 'z') || ('A' ≤ c && c ≤ 'Z') || ('0' ≤ c && c ≤ '9') || c = '_'

/-- Substring test on character lists (`String.prototype.includes`). -/
def containsList (l pat : List Char) : Bool := decide (pat <:+: l)

/-- JS `s.includes(pat)`. -/
def jsIncludes (s pat : String) : Bool := containsList s.data pat.data

/-- JS `s.toUpperCase()` (ASCII; the source only compares ASCII tokens). -/
def jsToUpperCase (s : String) : String := String.mk (s.data.map Char.toUpper)

/-- JS `s.toLowerCase()` (ASCII; the source only compares ASCII tokens). -/
def jsToLowerCase (s : String) : String := String.mk (s.data.map Char.toLower)

/-- JS `s.startsWith(pat)`. -/
def jsStartsWith (s pat : String) : Bool := pat.data.isPrefixOf s.data

/-- JS `s.endsWith(pat)`. -/
def jsEndsWith (s pat : String) : Bool := pat.data.isSuffixOf s.data

/-- Strip leading and trailing JS whitespace from a character list. -/
def jsTrimList (l : List Char) : List Char :=
  ((l.dropWhile isJsWs).reverse.dropWhile isJsWs).reverse

/-- JS `s.trim()`. -/
def jsTrim (s : String) : String := String.mk (jsTrimList s.data)

/-- JS `s.split(c)` for a single-character separator. -/
def jsSplitChar (s : String) (c : Char) : List String :=
  (s.data.splitOn c).map String.mk

/-- JS `[...new Set(l)]`: deduplicate keeping first occurrences in order. -/
def jsSetList (l : List String) : List String :=
  l.foldl (fun acc x => if x ∈ acc then acc else acc ++ [x]) []

/-- JS `s.slice(0, n)` on a string. -/
def takeChars (n : Nat) (s : String) : String := String.mk (s.data.take n)

/-! ### Breaking-change detection

The function `isBreakingChange(subject, body)` appears verbatim in both
src/lib/ai-provider.js (lines 977-985) and src/lib/ai-changelog-generator.js
(lines 425-433); a single embedding serves both. -/

/-- Embeds `isBreakingChange` from the source. -/
def isBreakingChange (subject body : String) : Bool :=
  if subject = "" then false
  else
    jsIncludes subject "!:" ||
    jsIncludes (jsToUpperCase subject) "BREAKING" ||
    jsIncludes body "BREAKING CHANGE:" ||
    jsIncludes body "BREAKING-CHANGE:" ||
    jsIncludes (jsToUpperCase body) "BREAKING CHANGE"

/-! ### Commit type inference (src/lib/ai-provider.js, lines 946-966) -/

/-- Embeds `inferTypeFromMessage` of the provider (keyword-inference table). -/
def inferTypeFromMessage (message : String) : String :=
  if message = "" then "other"
  else
    let lm := jsToLowerCase message
    if jsIncludes lm "add" || jsIncludes lm "new" || jsIncludes lm "implement" then "feat"
    else if jsIncludes lm "fix" || jsIncludes lm "bug" || jsIncludes lm "resolve" then "fix"
    else if jsIncludes lm "update" || jsIncludes lm "upgrade" || jsIncludes lm "improve" then "refactor"
    else if jsIncludes lm "remove" || jsIncludes lm "delete" || jsIncludes lm "clean" then "chore"
    else if jsIncludes lm "test" || jsIncludes lm "spec" then "test"
    else if jsIncludes lm "doc" || jsIncludes lm "readme" then "docs"
    else if jsIncludes lm "style" || jsIncludes lm "format" || jsIncludes lm "lint" then "style"
    else if jsIncludes lm "performance" || jsIncludes lm "perf" || jsIncludes lm "optimize" then "perf"
    else if jsIncludes lm "security" || jsIncludes lm "vulnerability" then "security"
    else if jsIncludes lm "config" || jsIncludes lm "setting" then "config"
    else if jsIncludes lm "build" || jsIncludes lm "deploy" || jsIncludes lm "release" then "build"
    else if jsIncludes lm "ci" || jsIncludes lm "workflow" || jsIncludes lm "action" then "ci"
    else "other"

/-! ### File categorization (src/lib/ai-changelog-generator.js, lines 436-527) -/

/-- Embeds `categorizeFile`: path-suffix and path-segment lookup. -/
def categorizeFile (filePath : String) : String :=
  if filePath = "" then "other"
  else
    let p := jsToLowerCase filePath
    if jsEndsWith p ".ts" || jsEndsWith p ".tsx" || jsEndsWith p ".js" || jsEndsWith p ".jsx" then "source"
    else if jsEndsWith p ".css" || jsEndsWith p ".scss" || jsEndsWith p ".sass" ||
        jsEndsWith p ".less" || jsEndsWith p ".styl" then "style"
    else if jsEndsWith p ".json" || jsEndsWith p ".yaml" || jsEndsWith p ".yml" ||
        jsEndsWith p ".toml" || jsEndsWith p ".ini" || jsEndsWith p ".xml" then "config"
    else if jsEndsWith p ".md" || jsEndsWith p ".txt" || jsEndsWith p ".rst" ||
        jsEndsWith p ".adoc" then "docs"
    else if jsEndsWith p ".test.ts" || jsEndsWith p ".test.tsx" || jsEndsWith p ".test.js" ||
        jsEndsWith p ".test.jsx" || jsEndsWith p ".spec.ts" || jsEndsWith p ".spec.tsx" ||
        jsEndsWith p ".spec.js" || jsEndsWith p ".spec.jsx" then "test"
    else if jsEndsWith p ".sql" || jsEndsWith p ".prisma" || jsIncludes p "migration" then "database"
    else if jsEndsWith p ".png" || jsEndsWith p ".jpg" || jsEndsWith p ".jpeg" ||
        jsEndsWith p ".gif" || jsEndsWith p ".svg" || jsEndsWith p ".webp" ||
        jsEndsWith p ".ico" then "asset"
    else if jsEndsWith p ".sh" || jsEndsWith p ".bash" || jsEndsWith p ".ps1" ||
        jsEndsWith p ".bat" then "script"
    else "other"

/-- Embeds `detectLanguage`: extension lookup table. -/
def detectLanguage (filePath : String) : String :=
  if filePath = "" then "Unknown"
  else
    let ext := jsToLowerCase ((jsSplitChar filePath '.').getLast?.getD "")
    if ext = "ts" then "TypeScript"
    else if ext = "tsx" then "TypeScript React"
    else if ext = "js" then "JavaScript"
    else if ext = "jsx" then "JavaScript React"
    else if ext = "py" then "Python"
    else if ext = "java" then "Java"
    else if ext = "c" then "C"
    else if ext = "cpp" then "C++"
    else if ext = "go" then "Go"
    else if ext = "rs" then "Rust"
    else if ext = "php" then "PHP"
    else if ext = "rb" then "Ruby"
    else if ext = "swift" then "Swift"
    else if ext = "kt" then "Kotlin"
    else if ext = "css" then "CSS"
    else if ext = "scss" then "SCSS"
    else if ext = "sass" then "Sass"
    else if ext = "html" then "HTML"
    else if ext = "json" then "JSON"
    else if ext = "md" then "Markdown"
    else if ext = "sql" then "SQL"
    else if ext = "yml" then "YAML"
    else if ext = "yaml" then "YAML"
    else if ext = "toml" then "TOML"
    else if ext = "sh" then "Shell"
    else if ext = "bash" then "Bash"
    else "Unknown"

/-- Embeds `assessFileImportance` (score capped at 5). -/
def assessFileImportance (filePath status : String) : Nat :=
  if filePath = "" then 1
  else
    let lp := jsToLowerCase filePath
    let score : Nat :=
      (if jsIncludes filePath "/pages/" || jsIncludes filePath "/app/" ||
          jsIncludes filePath "/src/" || jsIncludes filePath "/components/" then 3 else 0) +
      (if jsIncludes filePath "/api/" || jsIncludes filePath "/server/" ||
          jsIncludes filePath "/backend/" then 3 else 0) +
      (if jsIncludes filePath "/utils/" || jsIncludes filePath "/lib/" ||
          jsIncludes filePath "/helpers/" then 2 else 0) +
      (if jsStartsWith filePath "package.json" || jsStartsWith filePath "tsconfig" ||
          jsStartsWith filePath "webpack.config" || jsStartsWith filePath "babel.config" then 3 else 0) +
      (if jsIncludes lp ".env" || jsIncludes lp "dockerfile" || jsIncludes lp "docker-compose" then 2 else 0) +
      (if jsIncludes filePath "/migrations/" || jsIncludes filePath "/schema/" ||
          jsIncludes filePath "/database/" then 3 else 0) +
      (if status = "A" then 2 else 0) +
      (if status = "D" then 1 else 0)
    min score 5

/-- The marker string the generator substitutes when `git show` fails for a
file (binary file or unavailable diff). -/
def binaryDiffMarker : String := "Binary file or diff unavailable"

/-- Embeds `assessChangeComplexity`: bucket the number of added+removed diff
lines into levels 1-5; absent or binary diffs yield level 1. -/
def assessChangeComplexity (diff : String) : Nat :=
  if diff = "" || diff = binaryDiffMarker then 1
  else
    let lines := jsSplitChar diff '\n'
    let additions := (lines.filter (fun l => jsStartsWith l "+")).length
    let deletions := (lines.filter (fun l => jsStartsWith l "-")).length
    let total := additions + deletions
    if total < 10 then 1
    else if total < 50 then 2
    else if total < 100 then 3
    else if total < 200 then 4
    else 5

/-- Embeds `determineChangeScope`. -/
def determineChangeScope (filePath : String) : String :=
  if filePath = "" then "local"
  else if jsIncludes filePath "/lib/" || jsIncludes filePath "/utils/" ||
      jsIncludes filePath "shared/" then "wide"
  else if jsIncludes filePath "/components/" || jsIncludes filePath "/hooks/" then "moderate"
  else "local"

/-! ### Regex-lite scanners

The source tests a fixed set of JS regular expressions against diff text.
Each pattern is an alternation of literal tokens separated by whitespace
classes, so every test is translated into an explicit scanner: a predicate on
a suffix of the character list, tried at every position. -/

/-- Does the position predicate hold at some suffix of the list? -/
def scanPos (p : List Char → Bool) : List Char → Bool
  | [] => p []
  | c :: cs => p (c :: cs) || scanPos p cs

/-- Match a literal at the head of the list, returning the rest. -/
def dropLit (lit : String) (l : List Char) : Option (List Char) :=
  if lit.data.isPrefixOf l then some (l.drop lit.data.length) else none

/-- Match the first literal of an alternation at the head of the list.  The
alternations used by the source have pairwise distinct first characters, so at
most one branch can match and the translation is exact. -/
def dropAlt (lits : List String) (l : List Char) : Option (List Char) :=
  match lits with
  | [] => none
  | x :: xs =>
    match dropLit x l with
    | some r => some r
    | none => dropAlt xs l

/-- Consume a `\s+` (one or more whitespace characters, greedily). -/
def afterWsPlus (l : List Char) : Option (List Char) :=
  match l with
  | [] => none
  | c :: cs => if isJsWs c then some (cs.dropWhile isJsWs) else none

/-- Consume a `\s*` (any whitespace, greedily). -/
def afterWsStar (l : List Char) : List Char := l.dropWhile isJsWs

/-- Pattern `lit\s*c` at the current position (for `/try\s*{/`, `/catch\s*\(/`,
`/BREAKING\s*CHANGE/i` with a literal continuation). -/
def litWsStarChar (lit : String) (c : Char) (l : List Char) : Bool :=
  match dropLit lit l with
  | some r => (afterWsStar r).head? = some c
  | none => false

/-- Pattern `lit1\s*lit2` at the current position. -/
def litWsStarLit (lit1 lit2 : String) (l : List Char) : Bool :=
  match dropLit lit1 l with
  | some r => lit2.data.isPrefixOf (afterWsStar r)
  | none => false

/-- Pattern `lit\s+` at the current position (for `/throw\s+/` etc.). -/
def litThenWs (lit : String) (l : List Char) : Bool :=
  match dropLit lit l with
  | some r => r.head?.any isJsWs
  | none => false

/-- Pattern `lit1\s+lit2` at the current position (for `/DROP\s+TABLE/i`). -/
def litWsPlusLit (lit1 lit2 : String) (l : List Char) : Bool :=
  match dropLit lit1 l with
  | some r =>
    match afterWsPlus r with
    | some r2 => lit2.data.isPrefixOf r2
    | none => false
  | none => false

/-- Pattern `/ALTER\s+TABLE.*DROP/` at the current position (on lowercased
text); `.` does not cross line terminators. -/
def alterTableDropAt (l : List Char) : Bool :=
  match dropLit "alter" l with
  | some r =>
    match afterWsPlus r with
    | some r2 =>
      match dropLit "table" r2 with
      | some r3 => containsList (r3.takeWhile (fun c => c ≠ '\n' && c ≠ '\r')) "drop".data
      | none => false
    | none => false
  | none => false

/-- Pattern `/export\s+(?:interface|type)\s+\w+.*{/` at the current position. -/
def exportTypeBraceAt (l : List Char) : Bool :=
  match dropLit "export" l with
  | some r =>
    match afterWsPlus r with
    | some r1 =>
      match dropAlt ["interface", "type"] r1 with
      | some r2 =>
        match afterWsPlus r2 with
        | some r3 =>
          (r3.head?.any isWordChar) &&
          ((r3.drop 1).takeWhile (fun c => c ≠ '\n' && c ≠ '\r')).contains (Char.ofNat 123)
        | none => false
      | none => false
    | none => false
  | none => false

/-- Pattern `/export\s+(?:const|function)\s+\w+/` at the current position. -/
def exportConstFnAt (l : List Char) : Bool :=
  match dropLit "export" l with
  | some r =>
    match afterWsPlus r with
    | some r1 =>
      match dropAlt ["const", "function"] r1 with
      | some r2 =>
        match afterWsPlus r2 with
        | some r3 => r3.head?.any isWordChar
        | none => false
      | none => false
    | none => false
  | none => false

/-- Test a position predicate anywhere in a string. -/
def testAnywhere (p : List Char → Bool) (s : String) : Bool := scanPos p s.data

/-! ### Capture scanners for `matchAll` patterns

The `codePatterns` table of `analyzeSemanticChanges` is used with `matchAll`
to collect captured identifier names.  Each matcher below returns the length
of the whole match together with the captured name; `scanMatches` advances
past each match like the JS global-flag scan. -/

/-- Maximal `\w+` run at the head. -/
def wordRun (l : List Char) : List Char := l.takeWhile isWordChar

/-- Consume an optional `(?:lit\s+)?` group, greedily. -/
def optLitWs (lit : String) (l : List Char) : List Char :=
  match dropLit lit l with
  | some r =>
    match afterWsPlus r with
    | some r2 => r2
    | none => l
  | none => l

/-- Positions (in increasing order) at which a literal occurs in a run. -/
def litPositions (lit : String) (run : List Char) : List Nat :=
  (List.range (run.length + 1)).filter (fun i => lit.data.isPrefixOf (run.drop i))

/-- Greedy capture for `\w+lit` inside a word run: the longest prefix of the
run that ends with the literal after at least one word character. -/
def greedySuffixCap (lit : String) (run : List Char) : Option (List Char) :=
  match ((litPositions lit run).filter (fun i => 1 ≤ i)).getLast? with
  | some i => some (run.take (i + lit.data.length))
  | none => none

/-- Matcher for `/(?:export\s+)?(?:async\s+)?function\s+(\w+)/g`. -/
def matchFunctionDef (l : List Char) : Option (Nat × String) :=
  let l1 := optLitWs "export" l
  let l2 := optLitWs "async" l1
  match dropLit "function" l2 with
  | some r =>
    match afterWsPlus r with
    | some r2 =>
      let run := wordRun r2
      if run = [] then none
      else some (l.length - (r2.length - run.length), String.mk run)
    | none => none
  | none => none

/-- Matcher for `/(?:export\s+)?(?:const|function)\s+(\w+Component|\w+Page|\w+Layout)/g`. -/
def matchComponentDef (l : List Char) : Option (Nat × String) :=
  let l1 := optLitWs "export" l
  match dropAlt ["const", "function"] l1 with
  | some r =>
    match afterWsPlus r with
    | some r2 =>
      let run := wordRun r2
      match greedySuffixCap "Component" run with
      | some cap => some (l.length - (r2.length - cap.length), String.mk cap)
      | none =>
        match greedySuffixCap "Page" run with
        | some cap => some (l.length - (r2.length - cap.length), String.mk cap)
        | none =>
          match greedySuffixCap "Layout" run with
          | some cap => some (l.length - (r2.length - cap.length), String.mk cap)
          | none => none
    | none => none
  | none => none

/-- Matcher for `/(?:export\s+)?(?:const|function)\s+(use\w+)/g`. -/
def matchHookDef (l : List Char) : Option (Nat × String) :=
  let l1 := optLitWs "export" l
  match dropAlt ["const", "function"] l1 with
  | some r =>
    match afterWsPlus r with
    | some r2 =>
      let run := wordRun r2
      if "use".data.isPrefixOf run && 4 ≤ run.length then
        some (l.length - (r2.length - run.length), String.mk run)
      else none
    | none => none
  | none => none

/-- Matcher for `/(?:export\s+)?(?:type|interface)\s+(\w+)/g`. -/
def matchTypeDef (l : List Char) : Option (Nat × String) :=
  let l1 := optLitWs "export" l
  match dropAlt ["type", "interface"] l1 with
  | some r =>
    match afterWsPlus r with
    | some r2 =>
      let run := wordRun r2
      if run = [] then none
      else some (l.length - (r2.length - run.length), String.mk run)
    | none => none
  | none => none

/-- Matcher for `/(?:export\s+)?const\s+(\w+)/g`. -/
def matchConstantDef (l : List Char) : Option (Nat × String) :=
  let l1 := optLitWs "export" l
  match dropLit "const" l1 with
  | some r =>
    match afterWsPlus r with
    | some r2 =>
      let run := wordRun r2
      if run = [] then none
      else some (l.length - (r2.length - run.length), String.mk run)
    | none => none
  | none => none

/-- Global-flag scan collecting captures, advancing past each match
(fuel-indexed; the fuel is instantiated with the list length, which bounds the
number of scan steps). -/
def scanMatchesAux (m : List Char → Option (Nat × String)) : Nat → List Char → List String
  | 0, _ => []
  | _ + 1, [] => []
  | fuel + 1, c :: cs =>
    match m (c :: cs) with
    | some (len, cap) => cap :: scanMatchesAux m fuel ((c :: cs).drop (max len 1))
    | none => scanMatchesAux m fuel cs

/-- JS `[...diff.matchAll(regex)]` capture collection. -/
def scanMatches (m : List Char → Option (Nat × String)) (l : List Char) : List String :=
  scanMatchesAux m l.length l

/-! ### Diff classifier data model -/

/-- Result of `analyzeSemanticChanges` (sets are modelled as insertion-ordered
duplicate-free lists, matching the JS `Set` converted by
`convertSetsToArrays`). -/
structure SemanticChanges where
  changeType : String
  patterns : List String
  frameworks : List String
  keywords : List String
  codeElements : List String
  apiChanges : List String
  dataChanges : List String
deriving Repr, DecidableEq

/-- Result of `analyzeFunctionalImpact`. -/
structure FunctionalImpact where
  scope : String
  breaking : Bool
  userFacing : Bool
  apiChanges : Bool
  dataChanges : Bool
  securityRelated : Bool
  performanceImpact : Bool
  migrationRequired : Bool
  deploymentImpact : String
deriving Repr, DecidableEq

/-- Result of `assessBusinessRelevance`. -/
structure BusinessRelevance where
  priority : String
  userImpact : String
  businessValue : String
  customerFacing : Bool
  revenueImpact : Bool
deriving Repr, DecidableEq

/-- Result of `analyzeFileChange` (one classified file change). -/
structure FileAnalysis where
  status : String
  filePath : String
  diff : String
  beforeContent : String
  afterContent : String
  category : String
  language : String
  importance : Nat
  complexity : Nat
  semanticChanges : SemanticChanges
  functionalImpact : FunctionalImpact
  businessRelevance : BusinessRelevance
deriving Repr, DecidableEq

/-- JS `Set.prototype.add` on the insertion-ordered list model. -/
def addSet (l : List String) (x : String) : List String :=
  if x ∈ l then l else l ++ [x]

/-- The freshly initialized `analysis` object of `analyzeSemanticChanges`. -/
def emptySemanticChanges : SemanticChanges :=
  { changeType := "modification", patterns := [], frameworks := [], keywords := []
    codeElements := [], apiChanges := [], dataChanges := [] }

/-- The `codePatterns` table of `analyzeSemanticChanges`, in source order. -/
def codePatternTable : List (String × (List Char → Option (Nat × String))) :=
  [("function_definition", matchFunctionDef),
   ("component_definition", matchComponentDef),
   ("hook_definition", matchHookDef),
   ("type_definition", matchTypeDef),
   ("constant_definition", matchConstantDef)]

/-- The `advancedPatterns` table of `analyzeSemanticChanges`, in source order;
each entry is `regexes.some(regex => regex.test(diff))` with the exact
case-sensitivity flags of the source (only the final regex of some rows has
the `i` flag). -/
def advancedPatternTable : List (String × (String → Bool)) :=
  [("error_handling", fun d =>
      testAnywhere (litWsStarChar "try" (Char.ofNat 123)) d ||
      testAnywhere (litWsStarChar "catch" '(') d ||
      testAnywhere (litThenWs "throw") d ||
      jsIncludes d "Error("),
   ("async_operations", fun d =>
      testAnywhere (litThenWs "async") d ||
      testAnywhere (litThenWs "await") d ||
      jsIncludes d "Promise." ||
      jsIncludes d ".then("),
   ("data_validation", fun d =>
      jsIncludes d "validate" || jsIncludes d "schema" || jsIncludes d "validation" ||
      jsIncludes (jsToLowerCase d) "validator"),
   ("authentication", fun d =>
      jsIncludes d "auth" || jsIncludes d "login" || jsIncludes d "logout" ||
      jsIncludes d "token" || jsIncludes d "jwt" || jsIncludes (jsToLowerCase d) "session"),
   ("authorization", fun d =>
      jsIncludes d "permission" || jsIncludes d "role" || jsIncludes d "access" ||
      jsIncludes d "policy" || jsIncludes (jsToLowerCase d) "guard"),
   ("caching", fun d =>
      jsIncludes d "cache" || jsIncludes d "memo" || jsIncludes d "useMemo" ||
      jsIncludes (jsToLowerCase d) "usecallback"),
   ("testing", fun d =>
      jsIncludes d "test" || jsIncludes d "spec" || jsIncludes d "mock" ||
      jsIncludes d "describe" || jsIncludes d "it("),
   ("styling", fun d =>
      jsIncludes d "className" || jsIncludes d "css" || jsIncludes d "styled" ||
      jsIncludes d "style"),
   ("state_management", fun d =>
      jsIncludes d "useState" || jsIncludes d "useReducer" || jsIncludes d "store" ||
      jsIncludes (jsToLowerCase d) "state"),
   ("routing", fun d =>
      jsIncludes d "router" || jsIncludes d "navigate" || jsIncludes d "redirect" ||
      jsIncludes d "route" || jsIncludes d "Link"),
   ("data_fetching", fun d =>
      jsIncludes d "fetch" || jsIncludes d "axios" || jsIncludes d "useQuery" ||
      jsIncludes d "useMutation" || jsIncludes (jsToLowerCase d) "api")]

/-- The HTTP methods iterated by the API-endpoint loop. -/
def httpMethods : List String := ["GET", "POST", "PUT", "DELETE", "PATCH"]

/-- Embeds `analyzeSemanticChanges` (src/lib/ai-changelog-generator.js, lines
530-622).  Binary or absent diffs return the empty analysis before any
pattern matching. -/
def analyzeSemanticChanges (diff filePath : String) : SemanticChanges :=
  if diff = "" || diff = binaryDiffMarker then emptySemanticChanges
  else
    let a0 := emptySemanticChanges
    let a1 :=
      if jsIncludes filePath "database/" || jsIncludes filePath "sql/" ||
          jsIncludes filePath "migrations/" then
        let b0 := { a0 with frameworks := addSet a0.frameworks "Database" }
        let b1 :=
          if jsIncludes diff "CREATE TABLE" || jsIncludes diff "ALTER TABLE" then
            { b0 with changeType := "schema_change",
                      patterns := addSet b0.patterns "database_schema" }
          else b0
        if jsIncludes diff "CREATE POLICY" || jsIncludes diff "ALTER POLICY" then
          { b1 with patterns := addSet b1.patterns "security_policy" }
        else b1
      else a0
    let a2 :=
      if jsEndsWith filePath ".tsx" || jsEndsWith filePath ".jsx" then
        let b0 := { a1 with frameworks := addSet a1.frameworks "React" }
        let b1 :=
          if jsIncludes diff "useState" || jsIncludes diff "useEffect" then
            { b0 with patterns := addSet b0.patterns "react_hooks" }
          else b0
        if jsIncludes diff "useCallback" || jsIncludes diff "useMemo" then
          { b1 with patterns := addSet b1.patterns "performance_optimization" }
        else b1
      else a1
    let a3 :=
      if jsIncludes filePath "/api/" || jsIncludes filePath "route." then
        let b0 := { a2 with frameworks := addSet a2.frameworks "API",
                            changeType := "api_change" }
        httpMethods.foldl (fun acc m =>
          if jsIncludes diff ("export async function " ++ m) ||
              jsIncludes diff ("app." ++ jsToLowerCase m) then
            { acc with apiChanges := acc.apiChanges ++ [m ++ " endpoint"],
                       patterns := addSet acc.patterns "api_endpoint" }
          else acc) b0
      else a2
    let a4 := codePatternTable.foldl (fun acc nm =>
        let ms := scanMatches nm.2 diff.data
        if ms ≠ [] then
          { acc with patterns := addSet acc.patterns nm.1,
                     codeElements := ms.foldl addSet acc.codeElements }
        else acc) a3
    advancedPatternTable.foldl (fun acc nt =>
        if nt.2 diff then { acc with patterns := addSet acc.patterns nt.1 } else acc) a4

/-- Embeds `analyzeFunctionalImpact` (src/lib/ai-changelog-generator.js, lines
635-715). -/
def analyzeFunctionalImpact (diff filePath status : String) : FunctionalImpact :=
  let base : FunctionalImpact :=
    { scope := determineChangeScope filePath, breaking := false, userFacing := false
      apiChanges := false, dataChanges := false, securityRelated := false
      performanceImpact := false, migrationRequired := false, deploymentImpact := "low" }
  if diff = "" || diff = binaryDiffMarker then base
  else
    let ld := jsToLowerCase diff
    let breaking :=
      testAnywhere (litWsStarLit "breaking" "change") ld ||
      testAnywhere exportTypeBraceAt diff ||
      testAnywhere exportConstFnAt diff ||
      testAnywhere (litWsPlusLit "drop" "table") ld ||
      testAnywhere alterTableDropAt ld ||
      jsIncludes ld "removefield" ||
      jsIncludes ld "deletecolumn"
    let userFacing :=
      ["/pages/", "/app/", "/src/", "/components/", "/views/", "/templates/",
       "/public/", ".css", ".scss", ".html"].any (fun p => jsIncludes filePath p)
    let apiChanges :=
      jsIncludes filePath "/api/" || jsIncludes filePath "route." ||
      jsIncludes diff "export async function" || jsIncludes diff "app.get" ||
      jsIncludes diff "app.post"
    let dataChanges :=
      jsIncludes filePath "database/" || jsIncludes filePath "migration" ||
      jsIncludes filePath "schema" || jsIncludes diff "CREATE TABLE" ||
      jsIncludes diff "ALTER TABLE"
    let securityRelated :=
      ["auth", "security", "password", "token", "jwt", "encrypt", "decrypt", "hash",
       "validate", "sanitize", "policy", "permission", "role", "access", "cors"].any
        (fun p => jsIncludes ld p)
    let performanceImpact :=
      ["lazy", "memo", "callback", "optimize", "cache", "index", "query", "batch",
       "concurrent", "async"].any (fun p => jsIncludes ld p)
    let migrationRequired :=
      breaking || dataChanges || jsIncludes filePath "package.json" ||
      jsIncludes filePath ".env"
    let deploymentImpact :=
      if breaking || dataChanges then "high"
      else if apiChanges || securityRelated || jsIncludes filePath "config" then "medium"
      else "low"
    { scope := determineChangeScope filePath, breaking := breaking,
      userFacing := userFacing, apiChanges := apiChanges, dataChanges := dataChanges,
      securityRelated := securityRelated, performanceImpact := performanceImpact,
      migrationRequired := migrationRequired, deploymentImpact := deploymentImpact }

/-- Embeds `assessBusinessRelevance` (src/lib/ai-changelog-generator.js, lines
718-759). -/
def assessBusinessRelevance (filePath diff : String) : BusinessRelevance :=
  let base : BusinessRelevance :=
    { priority := "low", userImpact := "minimal", businessValue := "technical"
      customerFacing := false, revenueImpact := false }
  if filePath = "" then base
  else
    let r1 :=
      if ["/dashboard", "/billing", "/auth", "/onboarding", "/checkout", "/payment",
          "/subscription", "/profile"].any (fun p => jsIncludes filePath p) then
        { base with priority := "high", customerFacing := true, businessValue := "direct" }
      else if ["/app/", "/components/ui", "/components/forms", "/api/auth",
          "/api/users"].any (fun p => jsIncludes filePath p) then
        { base with priority := "medium", customerFacing := true, businessValue := "indirect" }
      else base
    if diff = "" then r1
    else
      { r1 with revenueImpact :=
          ["payment", "billing", "subscription", "checkout", "revenue", "pricing",
           "plan", "upgrade", "downgrade"].any (fun p => jsIncludes (jsToLowerCase diff) p) }

/-- Embeds `analyzeFileChange` (src/lib/ai-changelog-generator.js, lines
332-383).  The three `execGitSafe` calls are oracle inputs: `none` models a
throwing git call, which the source converts to the binary-diff marker (for
the diff) or to the empty string (for the content snapshots).  All the
classification steps are total, so the outer catch (which would map an
exception to `null`) is unreachable in the embedding. -/
def analyzeFileChange (status filePath : String)
    (diffResult beforeResult afterResult : Option String) : FileAnalysis :=
  let diff := match diffResult with
    | some d => d
    | none => binaryDiffMarker
  let beforeContent :=
    if status ≠ "A" ∧ diff ≠ binaryDiffMarker then
      match beforeResult with
      | some s => takeChars 1000 s
      | none => ""
    else ""
  let afterContent :=
    if status ≠ "D" ∧ diff ≠ binaryDiffMarker then
      match afterResult with
      | some s => takeChars 1000 s
      | none => ""
    else ""
  { status := status, filePath := filePath, diff := diff
    beforeContent := beforeContent, afterContent := afterContent
    category := categorizeFile filePath, language := detectLanguage filePath
    importance := assessFileImportance filePath status
    complexity := assessChangeComplexity diff
    semanticChanges := analyzeSemanticChanges diff filePath
    functionalImpact := analyzeFunctionalImpact diff filePath status
    businessRelevance := assessBusinessRelevance filePath diff }

/-! ### Commit aggregation (src/lib/ai-changelog-generator.js, lines 240-329,
761-843) -/

/-- Diff statistics of a commit (`getCommitDiffStats` result shape). -/
structure DiffStats where
  files : Nat
  insertions : Nat
  deletions : Nat
deriving Repr, DecidableEq

/-- The `factors` object of `assessOverallComplexity`. -/
structure ComplexityFactors where
  filesCount : Nat
  linesChanged : Nat
  categoriesCount : Nat
deriving Repr, DecidableEq

/-- Result of `assessOverallComplexity`. -/
structure Complexity where
  level : String
  score : Nat
  factors : ComplexityFactors
deriving Repr, DecidableEq

/-- Result of `assessRisk`. -/
structure RiskAssessment where
  level : String
  score : Nat
  factors : List String
deriving Repr, DecidableEq

/-- Embeds `assessOverallComplexity`: file-count bucket + changed-lines bucket
+ category-diversity bonus, mapped to a level by fixed thresholds. -/
def assessOverallComplexity (files : List FileAnalysis) (diffStats : DiffStats) :
    Complexity :=
  let filesCount := files.length
  let linesChanged := diffStats.insertions + diffStats.deletions
  let s1 : Nat :=
    if 50 < filesCount then 5
    else if 20 < filesCount then 3
    else if 10 < filesCount then 2
    else if 5 < filesCount then 1
    else 0
  let s2 : Nat :=
    if 5000 < linesChanged then 5
    else if 1000 < linesChanged then 3
    else if 500 < linesChanged then 2
    else if 100 < linesChanged then 1
    else 0
  let categoriesCount := (jsSetList (files.map (fun f => f.category))).length
  let s3 : Nat :=
    if 4 < categoriesCount then 2
    else if 2 < categoriesCount then 1
    else 0
  let complexityScore := s1 + s2 + s3
  let level :=
    if 8 ≤ complexityScore then "very high"
    else if 6 ≤ complexityScore then "high"
    else if 4 ≤ complexityScore then "medium"
    else if 2 ≤ complexityScore then "low"
    else "minimal"
  { level := level, score := complexityScore
    factors := { filesCount := filesCount, linesChanged := linesChanged
                 categoriesCount := categoriesCount } }

/-- The `securityKeywords` list of `assessRisk`. -/
def securityKeywords : List String := ["auth", "security", "password", "token", "permission"]

/-- Embeds `assessRisk`: a weighted sum of five risk factors (breaking +5,
database +3, config +2, large-scale +2, security keyword +3) with the
triggered factor names, mapped to a level by fixed thresholds. -/
def assessRisk (files : List FileAnalysis) (diffStats : DiffStats)
    (subject body : String) : RiskAssessment :=
  let breaking := isBreakingChange subject body
  let db := files.any (fun f => f.category == "database")
  let cfg := files.any (fun f => f.category == "config")
  let large := decide (50 < files.length) ||
    decide (2000 < diffStats.insertions + diffStats.deletions)
  let sec := securityKeywords.any (fun k =>
    jsIncludes (jsToLowerCase subject) k || jsIncludes (jsToLowerCase body) k)
  let riskScore : Nat :=
    (if breaking then 5 else 0) + (if db then 3 else 0) + (if cfg then 2 else 0) +
    (if large then 2 else 0) + (if sec then 3 else 0)
  let riskFactors :=
    (if breaking then ["Breaking changes detected"] else []) ++
    (if db then ["Database schema changes"] else []) ++
    (if cfg then ["Configuration changes"] else []) ++
    (if large then ["Large scale changes"] else []) ++
    (if sec then ["Security-related changes"] else [])
  let level :=
    if 8 ≤ riskScore then "critical"
    else if 6 ≤ riskScore then "high"
    else if 4 ≤ riskScore then "medium"
    else if 2 ≤ riskScore then "low-medium"
    else "low"
  { level := level, score := riskScore, factors := riskFactors }

/-- Result of `performSemanticAnalysis` (commit-level semantic roll-up). -/
structure SemanticAnalysis where
  hasApiChanges : Bool
  hasDbChanges : Bool
  hasUiChanges : Bool
  hasConfigChanges : Bool
  affectedFeatures : List String
  riskLevel : String
  patterns : List String
  frameworks : List String
  codeElements : List String
deriving Repr, DecidableEq

/-- JS `array.push(x)` guarded by `!array.includes(x)`. -/
def pushIfAbsent (l : List String) (x : String) : List String :=
  if x ∈ l then l else l ++ [x]

/-- Embeds `performSemanticAnalysis` (src/lib/ai-changelog-generator.js, lines
761-843).  The `frameworks` field is a plain array in the source (the
per-file branch pushes may duplicate); `patterns` and `codeElements` are
sets. -/
def performSemanticAnalysis (files : List FileAnalysis) (subject body : String) :
    SemanticAnalysis :=
  let a0 : SemanticAnalysis :=
    { hasApiChanges := false, hasDbChanges := false, hasUiChanges := false
      hasConfigChanges := false, affectedFeatures := [], riskLevel := "low"
      patterns := [], frameworks := [], codeElements := [] }
  let a1 := files.foldl (fun acc file =>
    let b1 :=
      if jsIncludes file.filePath "/api/" then
        { acc with hasApiChanges := true, frameworks := acc.frameworks ++ ["API"] }
      else acc
    let b2 :=
      if jsIncludes file.filePath "migration" || jsIncludes file.filePath "schema" then
        { b1 with hasDbChanges := true, frameworks := b1.frameworks ++ ["Database"] }
      else b1
    let b3 :=
      if jsEndsWith file.filePath ".tsx" || jsEndsWith file.filePath ".jsx" ||
          jsEndsWith file.filePath ".css" || jsEndsWith file.filePath ".scss" then
        { b2 with hasUiChanges := true, frameworks := b2.frameworks ++ ["React"] }
      else b2
    let b4 :=
      if jsIncludes file.filePath "config" || jsIncludes file.filePath ".env" then
        { b3 with hasConfigChanges := true, patterns := addSet b3.patterns "configuration" }
      else b3
    let b5 := { b4 with
      frameworks := file.semanticChanges.frameworks.foldl pushIfAbsent b4.frameworks
      patterns := file.semanticChanges.patterns.foldl addSet b4.patterns
      codeElements := file.semanticChanges.codeElements.foldl addSet b4.codeElements }
    b5) a0
  let message := jsToLowerCase (subject ++ " " ++ body)
  let a2 :=
    if jsIncludes message "feat" || jsIncludes message "add" || jsIncludes message "new" then
      { a1 with patterns := addSet a1.patterns "new_feature" }
    else a1
  let a3 :=
    if jsIncludes message "fix" || jsIncludes message "bug" || jsIncludes message "resolve" then
      { a2 with patterns := addSet a2.patterns "bug_fix" }
    else a2
  let a4 :=
    if jsIncludes message "perf" || jsIncludes message "optim" || jsIncludes message "speed" then
      { a3 with patterns := addSet a3.patterns "performance_optimization" }
    else a3
  let a5 :=
    if jsIncludes message "security" || jsIncludes message "auth" ||
        jsIncludes message "permission" then
      { a4 with patterns := addSet a4.patterns "security_policy" }
    else a4
  let riskLevel :=
    if a5.hasApiChanges || a5.hasDbChanges then "high"
    else if a5.hasUiChanges || a5.hasConfigChanges then "medium"
    else "low"
  { a5 with riskLevel := riskLevel }

/-! ### Model selection (src/lib/ai-provider.js, lines 19-29 and 304-344) -/

/-- The `modelConfig` table of the provider; each field is an environment
override or the documented default. -/
structure ModelConfig where
  default : String
  simple : String
  complex : String
  reasoning : String
  advanced_reasoning : String
  reasoning_legacy : String
  advanced_reasoning_legacy : String
  nano : String
deriving Repr, DecidableEq

/-- The provider's `modelConfig` with no environment overrides. -/
def defaultModelConfig : ModelConfig :=
  { default := "gpt-4.1", simple := "gpt-4.1-mini", complex := "gpt-4.1"
    reasoning := "o4-mini", advanced_reasoning := "o4"
    reasoning_legacy := "o3-mini", advanced_reasoning_legacy := "o3"
    nano := "gpt-4.1-nano" }

/-- The `commitInfo` argument assembled by the generator's
`selectOptimalModel` and consumed by the provider's `selectModelForCommit`. -/
structure CommitInfo where
  files : List String
  additions : Nat
  deletions : Nat
  message : String
deriving Repr, DecidableEq

/-- Embeds `selectModelForCommit` (src/lib/ai-provider.js, lines 304-344):
heuristic tier choice from file count, changed lines and message keywords. -/
def selectModelForCommit (cfg : ModelConfig) (activeProvider : String)
    (c : CommitInfo) : String :=
  let filesChanged := c.files.length
  let linesChanged := c.additions + c.deletions
  let hasBreakingChanges := jsIncludes c.message "BREAKING" || jsIncludes c.message "!:"
  let hasComplexLogic :=
    jsIncludes (jsToLowerCase c.message) "refactor" ||
    jsIncludes (jsToLowerCase c.message) "algorithm" ||
    jsIncludes (jsToLowerCase c.message) "architecture"
  if decide (100 < filesChanged) || decide (5000 < linesChanged) ||
      hasBreakingChanges || hasComplexLogic then
    if activeProvider = "azure" then
      if decide (200 < filesChanged) || decide (10000 < linesChanged) then
        cfg.advanced_reasoning
      else cfg.reasoning
    else cfg.complex
  else if decide (20 < filesChanged) || decide (1000 < linesChanged) then cfg.complex
  else if decide (filesChanged < 3) && decide (linesChanged < 50) then cfg.nano
  else if decide (filesChanged < 10) && decide (linesChanged < 200) then cfg.simple
  else cfg.default

/-! ### Commit analysis record and AI summaries -/

/-- An `AISummary` as produced by `parseAIResponse` or
`generateRuleBasedSummary`.  Every field is `Option`-typed because a JS
object may in principle leave fields `undefined`; the structural-completeness
claims assert that both producers populate every required field
(`migrationNotes` is the one field the source may deliberately set to
`null`). -/
structure AISummary where
  summary : Option String
  technicalSummary : Option String
  category : Option String
  impact : Option String
  scope : Option String
  userFacing : Option Bool
  breaking : Option Bool
  businessImpact : Option String
  technicalImpact : Option String
  highlights : Option (List String)
  migrationNotes : Option String
  tags : Option (List String)
  relatedAreas : Option (List String)
  riskLevel : Option String
  confidence : Option ℚ
deriving Repr, DecidableEq

/-- Structural completeness of an `AISummary`: every required field is
populated; `migrationNotes` may be `null`. -/
def aiSummaryComplete (s : AISummary) : Bool :=
  s.summary.isSome && s.technicalSummary.isSome && s.category.isSome &&
  s.impact.isSome && s.scope.isSome && s.userFacing.isSome && s.breaking.isSome &&
  s.businessImpact.isSome && s.technicalImpact.isSome && s.highlights.isSome &&
  s.tags.isSome && s.relatedAreas.isSome && s.riskLevel.isSome && s.confidence.isSome

/-- The analysis object assembled by `getCommitAnalysis` (src/lib/
ai-changelog-generator.js, lines 213-228), optionally augmented with the
`aiSummary` attached by the changelog loop (lines 1425-1428). -/
structure CommitAnalysis where
  hash : String
  fullHash : String
  subject : String
  author : String
  date : String
  body : String
  files : List FileAnalysis
  diffStats : DiffStats
  type : String
  scope : Option String
  breaking : Bool
  semanticAnalysis : SemanticAnalysis
  complexity : Complexity
  riskAssessment : RiskAssessment
  aiSummary : Option AISummary := none
deriving Repr, DecidableEq


/-! ### Summarization orchestration (src/lib/ai-changelog-generator.js, lines
946-1203) -/

/-- The generator's `metrics` counters. -/
structure Metrics where
  commitsProcessed : Nat
  apiCalls : Nat
  errors : Nat
  totalTokens : Nat
  batchesProcessed : Nat
deriving Repr, DecidableEq

/-- Zero-initialized metrics. -/
def metricsZero : Metrics :=
  { commitsProcessed := 0, apiCalls := 0, errors := 0, totalTokens := 0
    batchesProcessed := 0 }

/-- The `this.metrics.errors++` side effect. -/
def incErrors (m : Metrics) : Metrics := { m with errors := m.errors + 1 }

/-- Embeds `generateRuleBasedSummary` (src/lib/ai-changelog-generator.js,
lines 1119-1203): the deterministic fallback summary derived from the
commit's own complexity, risk assessment and file categories. -/
def generateRuleBasedSummary (a : CommitAnalysis) : AISummary :=
  let category0 := if a.type = "" then "other" else a.type
  let step1 : String × String :=
    if a.riskAssessment.level = "critical" || a.riskAssessment.level = "high" then
      (a.riskAssessment.level, "breaking")
    else if a.complexity.level = "high" || a.complexity.level = "very high" then
      ("medium", category0)
    else ("low", category0)
  let hasUIChanges := a.files.any (fun f =>
    f.category == "source" && (jsEndsWith f.filePath ".tsx" || jsEndsWith f.filePath ".jsx"))
  let hasDBChanges := a.files.any (fun f => f.category == "database")
  let hasAPIChanges := a.files.any (fun f => f.functionalImpact.apiChanges)
  let hasSecurityChanges := a.files.any (fun f => f.functionalImpact.securityRelated)
  let step2 : String × String × Bool :=
    if hasSecurityChanges then ("high", "security", false)
    else if a.breaking then ("critical", "breaking", false)
    else if hasDBChanges || hasAPIChanges then ("medium", step1.2, false)
    else if hasUIChanges then ("medium", step1.2, true)
    else (step1.1, step1.2, false)
  let impact := step2.1
  let category := step2.2.1
  let userFacing := step2.2.2
  let insights : List String :=
    (if a.semanticAnalysis.patterns.contains "new_feature" then
      ["introduces new functionality"] else []) ++
    (if a.semanticAnalysis.patterns.contains "bug_fix" then ["resolves issues"] else []) ++
    (if a.semanticAnalysis.patterns.contains "performance_optimization" then
      ["improves performance"] else []) ++
    (if a.semanticAnalysis.patterns.contains "security_policy" then
      ["enhances security"] else []) ++
    (if a.semanticAnalysis.frameworks.contains "React" then
      ["updates React components"] else []) ++
    (if a.semanticAnalysis.frameworks.contains "Database" then
      ["modifies database layer"] else [])
  let highlights : List String :=
    (if 100 < a.diffStats.insertions then ["Significant code additions"] else []) ++
    (if 10 < a.files.length then ["Wide-ranging changes"] else []) ++
    (if hasUIChanges then ["User interface updates"] else []) ++
    (if hasDBChanges then ["Database modifications"] else []) ++
    (if a.complexity.level ≠ "minimal" then
      [a.complexity.level ++ " complexity changes"] else [])
  { summary := some (if insights ≠ [] then
      a.subject ++ " (" ++ String.intercalate ", " (insights.take 2) ++ ")"
    else a.subject)
    technicalSummary := some ("Modified " ++ toString a.files.length ++ " files with +" ++
      toString a.diffStats.insertions ++ "/-" ++ toString a.diffStats.deletions ++
      " lines. Complexity: " ++ a.complexity.level)
    category := some category
    impact := some impact
    scope := some (if impact = "critical" then "major"
      else if impact = "high" then "minor" else "patch")
    userFacing := some userFacing
    breaking := some a.breaking
    businessImpact := some (if userFacing then "Affects user experience"
      else "Internal improvements")
    technicalImpact := some ("Changes in " ++
      String.intercalate ", " (jsSetList (a.files.map (fun f => f.category))))
    highlights := some (highlights.take 3)
    migrationNotes := if a.breaking then
      some "Review breaking changes before deployment" else none
    tags := some (a.semanticAnalysis.frameworks ++ a.semanticAnalysis.patterns.take 3)
    relatedAreas := some ((jsSetList (a.files.map (fun f => f.category))).take 3)
    riskLevel := some a.riskAssessment.level
    confidence := some (7 / 10 : ℚ) }

/-- The fields of the JSON object that `parseAIResponse` reads from the
service response (the result of the builtin `JSON.parse`, which is modelled
as an oracle: `none` for a field means the key is absent or has the wrong
type). -/
structure ParsedAIResponse where
  summary : Option String
  technicalSummary : Option String
  category : Option String
  impact : Option String
  scope : Option String
  userFacing : Option Bool
  breaking : Option Bool
  businessImpact : Option String
  technicalImpact : Option String
  highlights : Option (List String)
  migrationNotes : Option String
  tags : Option (List String)
  relatedAreas : Option (List String)
  riskLevel : Option String
  confidence : Option ℚ
deriving Repr, DecidableEq

/-- JS `value || fallback` for string-valued fields (empty string is falsy). -/
def jsOrStr (v : Option String) (d : String) : String :=
  match v with
  | some s => if s = "" then d else s
  | none => d

/-- JS `value || fallback` for number-valued fields (0 is falsy). -/
def jsOrNum (v : Option ℚ) (d : ℚ) : ℚ :=
  match v with
  | some q => if q = 0 then d else q
  | none => d

/-- Embeds `parseAIResponse` (src/lib/ai-changelog-generator.js, lines
1077-1116).  The argument `parsed` is the oracle outcome of `JSON.parse` on
the fence-stripped response text: `none` models a parse exception, which the
catch block converts into an error count plus the rule-based fallback. -/
def parseAIResponse (parsed : Option ParsedAIResponse) (orig : CommitAnalysis)
    (m : Metrics) : AISummary × Metrics :=
  match parsed with
  | none => (generateRuleBasedSummary orig, incErrors m)
  | some p =>
    ({ summary := some (jsOrStr p.summary orig.subject)
       technicalSummary := some (jsOrStr p.technicalSummary "")
       category := some (jsOrStr p.category (if orig.type = "" then "other" else orig.type))
       impact := some (jsOrStr p.impact "low")
       scope := some (jsOrStr p.scope "patch")
       userFacing := some (p.userFacing.getD false)
       breaking := some (p.breaking.getD false)
       businessImpact := some (jsOrStr p.businessImpact "")
       technicalImpact := some (jsOrStr p.technicalImpact "")
       highlights := some (p.highlights.getD [])
       migrationNotes := (match p.migrationNotes with
         | some s => if s = "" then none else some s
         | none => none)
       tags := some (p.tags.getD [])
       relatedAreas := some (p.relatedAreas.getD [])
       riskLevel := some (jsOrStr p.riskLevel "low")
       confidence := some (jsOrNum p.confidence (4 / 5 : ℚ)) }, m)

/-- Outcome of the external summarization attempt inside `generateAISummary`,
as seen from the embedded control flow.  `noAI` is the `!this.hasAI` early
return; `modelUnavailable` is `validateModelAvailability` reporting the
selected model missing; `serviceFailure` is any exception thrown before a
response is obtained (availability probe or `generateCompletion` throwing);
`completed` carries the token usage reported, the raw `response.content`
(`none` or the empty string model a missing/empty content, which the source
turns into a thrown error), and the `JSON.parse` oracle for the content. -/
inductive AIOutcome where
  | noAI
  | modelUnavailable
  | serviceFailure
  | completed (tokens : Nat) (content : Option String) (parsed : Option ParsedAIResponse)
deriving Repr, DecidableEq

/-- Embeds `generateAISummary` (src/lib/ai-changelog-generator.js, lines
946-1007): try the external service, fall back to the rule-based summary on
any failure, counting errors for thrown exceptions and parse failures. -/
def generateAISummary (a : CommitAnalysis) (outcome : AIOutcome) (m : Metrics) :
    AISummary × Metrics :=
  match outcome with
  | .noAI => (generateRuleBasedSummary a, m)
  | .modelUnavailable => (generateRuleBasedSummary a, m)
  | .serviceFailure => (generateRuleBasedSummary a, incErrors m)
  | .completed tokens content parsed =>
    let m1 := { m with apiCalls := m.apiCalls + 1, totalTokens := m.totalTokens + tokens }
    match content with
    | none => (generateRuleBasedSummary a, incErrors m1)
    | some c =>
      if c = "" then (generateRuleBasedSummary a, incErrors m1)
      else parseAIResponse parsed a m1

/-! ### Release insight synthesis (src/lib/ai-changelog-generator.js, lines
846-910) -/

/-- The `ReleaseInsights` object. -/
structure ReleaseInsights where
  summary : String
  totalCommits : Nat
  commitTypes : List (String × Nat)
  riskLevel : String
  affectedAreas : List String
  breaking : Bool
  complexity : String
  businessImpact : String
  deploymentRequirements : List String
deriving Repr, DecidableEq

/-- JS `obj[k] = (obj[k] || 0) + 1` on an insertion-ordered association
list. -/
def bumpCount (l : List (String × Nat)) (k : String) : List (String × Nat) :=
  if l.any (fun p => p.1 == k) then
    l.map (fun p => if p.1 == k then (p.1, p.2 + 1) else p)
  else l ++ [(k, 1)]

/-- JS `obj[k] || 0` lookup. -/
def lookupCount (l : List (String × Nat)) (k : String) : Nat :=
  match l.find? (fun p => p.1 == k) with
  | some p => p.2
  | none => 0

/-- The body of the `analyzedCommits.forEach` loop of
`generateReleaseInsights`: type counting, breaking/risk escalation, affected
areas, and deployment requirements for one commit. -/
def releaseInsightsStep (acc : ReleaseInsights) (commit : CommitAnalysis) :
    ReleaseInsights :=
  let b1 := { acc with commitTypes := bumpCount acc.commitTypes commit.type }
  let b2 := if commit.breaking then { b1 with breaking := true } else b1
  let b3 := if commit.semanticAnalysis.riskLevel = "high" then
      { b2 with riskLevel := "high" } else b2
  let b4 := { b3 with affectedAreas :=
      commit.files.foldl (fun ar f => addSet ar f.category) b3.affectedAreas }
  let b5 := if commit.semanticAnalysis.hasDbChanges then
      { b4 with deploymentRequirements :=
          b4.deploymentRequirements ++ ["Database migration required"] }
    else b4
  if commit.breaking then
    { b5 with deploymentRequirements :=
        b5.deploymentRequirements ++ ["Breaking changes - review migration notes above."] }
  else b5

/-- Embeds `generateReleaseInsights`: rolls all analyzed commits up into one
release-level record.  The fractional `avgFilesPerCommit > t` comparisons are
expressed exactly as `t * count < totalFiles` (for an empty commit list the
JS average is `NaN` and both comparisons are false, matching the guards). -/
def generateReleaseInsights (analyzedCommits : List CommitAnalysis) : ReleaseInsights :=
  let i0 : ReleaseInsights :=
    { summary := "", totalCommits := analyzedCommits.length, commitTypes := []
      riskLevel := "low", affectedAreas := [], breaking := false, complexity := "low"
      businessImpact := "minor", deploymentRequirements := [] }
  let i1 := analyzedCommits.foldl releaseInsightsStep i0
  let totalFiles := analyzedCommits.foldl (fun s c => s + c.files.length) 0
  let n := analyzedCommits.length
  let complexity :=
    if (decide (0 < n) && decide (20 * n < totalFiles)) || i1.breaking then "high"
    else if decide (0 < n) && decide (10 * n < totalFiles) then "medium"
    else "low"
  let hasUserFacingChanges := analyzedCommits.any (fun c =>
    c.files.any (fun f => f.functionalImpact.userFacing))
  let hasRevenueImpact := analyzedCommits.any (fun c =>
    c.files.any (fun f => f.businessRelevance.revenueImpact))
  let businessImpact :=
    if hasRevenueImpact || i1.breaking then "major"
    else if hasUserFacingChanges then "moderate"
    else "minor"
  let features := lookupCount i1.commitTypes "feat"
  let fixes := lookupCount i1.commitTypes "fix"
  let summary := "Release includes " ++ toString features ++ " new features, " ++
    toString fixes ++ " bug fixes" ++ (if i1.breaking then " with breaking changes" else "")
  { i1 with complexity := complexity, businessImpact := businessImpact
            summary := summary }

/-! ### Batch processing (src/lib/ai-changelog-generator.js, lines 913-943) -/

/-- Outcome of `getCommitAnalysis` for one commit hash as observed through
`Promise.allSettled`: the analysis promise can reject (`errored`), fulfill
with `null` (the catch inside `getCommitAnalysis`), or fulfill with an
analysis object. -/
inductive AnalysisOutcome where
  | errored
  | nullResult
  | ok (a : CommitAnalysis)
deriving Repr, DecidableEq

/-- The `r.status === 'fulfilled' && r.value` filter of
`generateChangelogBatch`. -/
def settledValue : AnalysisOutcome → Option CommitAnalysis
  | .ok a => some a
  | .errored => none
  | .nullResult => none

/-- Embeds `generateChangelogBatch`: slice the hash list into fixed batches of
10, run the per-commit analyses of a batch together (`Promise.allSettled`
fulfills in input order), keep the fulfilled non-null results, and
concatenate the batches in order.  The per-commit analysis is the oracle
`analyze`; the progress output, metrics increment and inter-batch sleep are
side effects without influence on the result list. -/
def generateChangelogBatch (analyze : String → AnalysisOutcome)
    (commitHashes : List String) : List CommitAnalysis :=
  if h : commitHashes = [] then []
  else
    let batch := commitHashes.take 10
    let successfulResults := batch.filterMap (fun hsh => settledValue (analyze hsh))
    successfulResults ++ generateChangelogBatch analyze (commitHashes.drop 10)
termination_by commitHashes.length
decreasing_by
  simp only [List.length_drop]
  have : commitHashes.length ≠ 0 := fun hl => h (List.eq_nil_of_length_eq_zero hl)
  omega

/-! ### Commit record parser (src/lib/ai-provider.js, lines 846-985) -/

/-- All decompositions `l = mid ++ c :: tail` around an occurrence of `c`, in
increasing order of the occurrence position (used to resolve the greedy `.+`
before a closing parenthesis in the conventional-commit patterns). -/
def splitsAt (c : Char) : List Char → List (List Char × List Char)
  | [] => []
  | x :: xs =>
    (if x = c then [(([] : List Char), xs)] else []) ++
      (splitsAt c xs).map (fun mt => (x :: mt.1, mt.2))

/-- Characters matched by the regex `.` (no line terminators). -/
def dotChar (c : Char) : Bool := c ≠ '\n' && c ≠ '\r'

/-- The `!?:` tail of the conventional-commit patterns. -/
def colonTail (t : List Char) : Bool :=
  t.head? = some ':' || decide (t.take 2 = ['!', ':'])

/-- Does `rest` match the optional-scope-then-colon suffix `(\(.+\))?!?:` of
the conventional-commit regex at its start? -/
def matchesConvRest (rest : List Char) : Bool :=
  (match rest with
   | '(' :: r => (splitsAt ')' r).any (fun mt =>
       decide (mt.1 ≠ []) && mt.1.all dotChar && colonTail mt.2)
   | _ => false) ||
  colonTail rest

/-- The ordered alternation of the provider's conventional-commit regex
(lines 941); no token is a prefix of another, so the first and only matching
token is found. -/
def conventionalTypes : List String :=
  ["feat", "fix", "docs", "style", "refactor", "perf", "test", "build", "ci",
   "chore", "revert", "breaking", "security", "deps", "config", "ui", "api",
   "db", "wip"]

/-- Embeds the provider's `extractCommitType` (lines 937-944): anchored
case-insensitive conventional-commit match, falling back to the keyword
inference table. -/
def extractCommitType (message : String) : String :=
  if message = "" then "other"
  else
    match conventionalTypes.find? (fun tok =>
      ((message.data.take tok.data.length).map Char.toLower == tok.data) &&
      matchesConvRest (message.data.drop tok.data.length)) with
    | some tok => tok
    | none => inferTypeFromMessage message

/-- Embeds the provider's `extractCommitScope` (lines 968-975): the regex
`^\w+\((.+)\)!?:` with a greedy capture, trimmed. -/
def extractCommitScope (message : String) : Option String :=
  if message = "" then none
  else
    let run := message.data.takeWhile isWordChar
    if run = [] then none
    else
      match message.data.drop run.length with
      | '(' :: r =>
        match ((splitsAt ')' r).filter (fun mt =>
            decide (mt.1 ≠ []) && mt.1.all dotChar && colonTail mt.2)).getLast? with
        | some mt => some (jsTrim (String.mk mt.1))
        | none => none
      | _ => none

/-- A parsed commit record; fields that a given format does not populate are
`none` (the JS objects simply lack those keys). -/
structure GitCommit where
  hash : Option String := none
  shortHash : Option String := none
  subject : Option String := none
  body : Option String := none
  message : Option String := none
  author : Option String := none
  email : Option String := none
  authorDate : Option String := none
  commitDate : Option String := none
  date : Option String := none
  type : Option String := none
  scope : Option String := none
  breaking : Option Bool := none
  parents : Option (List String) := none
  refs : Option String := none
  isMerge : Option Bool := none
deriving Repr, DecidableEq

/-- One record of the `oneline` branch of `parseCommitOutput`. -/
def parseOnelineLine (line : String) : GitCommit :=
  match line.data.findIdx? (fun c => c = ' ') with
  | none => { hash := some line, message := some "" }
  | some i =>
    { hash := some (String.mk (line.data.take i))
      shortHash := some (String.mk (line.data.take i))
      message := some (String.mk (line.data.drop (i + 1))) }

/-- One record of the `simple` branch of `parseCommitOutput`; `none` is the
malformed-line diagnostic path (mapped to `null` and filtered out). -/
def parseSimpleLine (line : String) : Option GitCommit :=
  let parts := jsSplitChar line '|'
  if parts.length < 4 then none
  else
    let shortHash := parts.getD 0 ""
    let message := parts.getD 1 ""
    let author := parts.getD 2 ""
    let date := parts.getD 3 ""
    some { shortHash := some (jsTrim shortHash), message := some (jsTrim message)
           author := some (jsTrim author), date := some (jsTrim date)
           type := some (extractCommitType message)
           scope := extractCommitScope message }

/-- One record of the `full`/`detailed` branch of `parseCommitOutput`;
`none` is the malformed-line diagnostic path. -/
def parseFullLine (format : String) (line : String) : Option GitCommit :=
  let parts := jsSplitChar line '|'
  if parts.length < 8 then none
  else
    let fullHash := parts.getD 0 ""
    let shortHash := parts.getD 1 ""
    let subject := parts.getD 2 ""
    let body := parts.getD 3 ""
    let author := parts.getD 4 ""
    let email := parts.getD 5 ""
    let authorDate := parts.getD 6 ""
    let commitDate := parts.getD 7 ""
    let parentsList := match parts.get? 8 with
      | some p => (jsSplitChar (jsTrim p) ' ').filter (fun s => s ≠ "")
      | none => []
    some { hash := some (jsTrim fullHash), shortHash := some (jsTrim shortHash)
           subject := some (jsTrim subject), body := some (jsTrim body)
           message := some (jsTrim subject ++
             (if jsTrim body ≠ "" then "\n\n" ++ jsTrim body else ""))
           author := some (jsTrim author), email := some (jsTrim email)
           authorDate := some (jsTrim authorDate), commitDate := some (jsTrim commitDate)
           type := some (extractCommitType subject)
           scope := extractCommitScope subject
           breaking := some (isBreakingChange subject body)
           parents := if format = "detailed" then some parentsList else none
           refs := if format = "detailed" then
               some (match parts.get? 9 with
                 | some r => jsTrim r
                 | none => "")
             else none
           isMerge := if format = "detailed" then some (decide (1 < parentsList.length))
             else none }

/-- Embeds `parseCommitOutput` (src/lib/ai-provider.js, lines 846-935): split
the raw log output by the format's record separator (NUL for `full`/
`detailed`, newline otherwise), drop blank records, and map each record to a
commit object, dropping malformed records.  The surrounding try/catch is
unreachable because every branch of the embedding is total. -/
def parseCommitOutput (output : String) (format : String) : List GitCommit :=
  if jsTrim output = "" then []
  else
    let lines :=
      if format = "full" || format = "detailed" then
        (jsSplitChar (jsTrim output) (Char.ofNat 0)).filter (fun s => s ≠ "")
      else
        (jsSplitChar (jsTrim output) '\n').filter (fun l => jsTrim l ≠ "")
    if format = "oneline" then lines.map parseOnelineLine
    else if format = "simple" then lines.filterMap parseSimpleLine
    else if format = "full" || format = "detailed" then
      lines.filterMap (parseFullLine format)
    else lines.map (fun l => { message := some (jsTrim l) })

/-! ### Git log command construction (src/lib/ai-provider.js, lines 731-844) -/

/-- Options of `getCommits` with their source defaults. -/
structure GetCommitsOptions where
  count : Nat := 20
  since : Option String := none
  untilDate : Option String := none
  author : Option String := none
  grep : Option String := none
  format : String := "full"
  excludeMerges : Bool := true
  branch : Option String := none
deriving Repr, DecidableEq

/-- JS `value.replace(/["\\]/g, '\\$&')`: escape quotes and backslashes. -/
def escapeGitArg (s : String) : String :=
  String.mk (s.data.foldr (fun c acc =>
    if c = '"' || c = '\\' then '\\' :: c :: acc else c :: acc) [])

/-- Shape `\d{4}-\d{2}-\d{2}`. -/
def dateShape (l : List Char) : Bool :=
  decide (l.length = 10) && (l.take 4).all Char.isDigit && decide (l.getD 4 ' ' = '-') &&
  ((l.drop 5).take 2).all Char.isDigit && decide (l.getD 7 ' ' = '-') &&
  ((l.drop 8).take 2).all Char.isDigit

/-- Shape `\d{2}:\d{2}:\d{2}`. -/
def timeShape (l : List Char) : Bool :=
  decide (l.length = 8) && (l.take 2).all Char.isDigit && decide (l.getD 2 ' ' = ':') &&
  ((l.drop 3).take 2).all Char.isDigit && decide (l.getD 5 ' ' = ':') &&
  ((l.drop 6).take 2).all Char.isDigit

/-- The `\s+ago$` tail of the relative-date pattern. -/
def relTail (r : List Char) : Bool :=
  match afterWsPlus r with
  | some r2 => decide (r2 = "ago".data)
  | none => false

/-- Pattern `^\d+\s(seconds?|minutes?|hours?|days?|weeks?|months?|years?)\s+ago$`. -/
def relativeDate (l : List Char) : Bool :=
  let ds := l.takeWhile Char.isDigit
  decide (ds ≠ []) &&
  (match l.drop ds.length with
   | c :: r1 => isJsWs c &&
     (["second", "minute", "hour", "day", "week", "month", "year"].any (fun stem =>
       match dropLit stem r1 with
       | some r2 => relTail r2 ||
           (match r2 with
            | 's' :: r3 => relTail r3
            | _ => false)
       | none => false))
   | [] => false)

/-- Pattern `^last\s+(week|month|year)$`. -/
def lastPeriod (l : List Char) : Bool :=
  match dropLit "last" l with
  | some r =>
    (match afterWsPlus r with
     | some r2 => decide (r2 = "week".data) || decide (r2 = "month".data) ||
         decide (r2 = "year".data)
     | none => false)
  | none => false

/-- Pattern `^HEAD~\d+$`. -/
def headTilde (l : List Char) : Bool :=
  match dropLit "HEAD~" l with
  | some r => decide (r ≠ []) && r.all Char.isDigit
  | none => false

/-- Pattern `^[a-f0-9]{7,40}$`. -/
def hexHash (l : List Char) : Bool :=
  decide (7 ≤ l.length) && decide (l.length ≤ 40) &&
  l.all (fun c => c.isDigit || ('a' ≤ c && c ≤ 'f'))

/-- Embeds `isValidGitDate` (src/lib/ai-provider.js, lines 830-844); the
final `!isNaN(Date.parse(dateStr))` test on the JS date builtin is the
oracle `dateParseOk`. -/
def isValidGitDate (dateParseOk : String → Bool) (dateStr : String) : Bool :=
  if dateStr = "" then false
  else
    dateShape dateStr.data ||
    (decide (dateStr.data.length = 19) && dateShape (dateStr.data.take 10) &&
      isJsWs (dateStr.data.getD 10 'x') && timeShape (dateStr.data.drop 11)) ||
    relativeDate dateStr.data ||
    decide (dateStr = "yesterday") || lastPeriod dateStr.data ||
    headTilde dateStr.data || hexHash dateStr.data ||
    dateParseOk dateStr

/-- The `formatStrings[format] || formatStrings.full` lookup. -/
def formatStringFor (format : String) : String :=
  if format = "simple" then "%h|%s|%an|%ad"
  else if format = "full" then "%H|%h|%s|%B|%an|%ae|%ad|%cd"
  else if format = "oneline" then "%h %s"
  else if format = "detailed" then "%H|%h|%s|%B|%an|%ae|%ad|%cd|%P|%D"
  else "%H|%h|%s|%B|%an|%ae|%ad|%cd"

/-- Embeds the command construction of `getCommits` (src/lib/ai-provider.js,
lines 743-818).  `branchExists` is the oracle for the `git rev-parse
--verify` probe; `dateParseOk` is the JS `Date.parse` oracle. -/
def buildGitLogCommand (opts : GetCommitsOptions) (branchExists : Bool)
    (dateParseOk : String → Bool) : String :=
  let c0 := "git log"
  let c1 := c0 ++ (match opts.branch with
    | some b => if branchExists then " " ++ b else ""
    | none => "")
  let c2 := c1 ++ (if 0 < opts.count then " -" ++ toString (min opts.count 1000) else "")
  let c3 := c2 ++ (match opts.since with
    | some s => if isValidGitDate dateParseOk s then " --since=\"" ++ s ++ "\"" else ""
    | none => "")
  let c4 := c3 ++ (match opts.untilDate with
    | some u => if isValidGitDate dateParseOk u then " --until=\"" ++ u ++ "\"" else ""
    | none => "")
  let c5 := c4 ++ (match opts.author with
    | some a => " --author=\"" ++ escapeGitArg a ++ "\""
    | none => "")
  let c6 := c5 ++ (match opts.grep with
    | some g => " --grep=\"" ++ escapeGitArg g ++ "\""
    | none => "")
  let c7 := c6 ++ (if opts.excludeMerges then " --no-merges" else "")
  let c8 := c7 ++ " --pretty=format:\"" ++ formatStringFor opts.format ++ "\" --date=iso"
  c8 ++ (if opts.format = "full" || opts.format = "detailed" then " -z" else "")

/-- Embeds the result path of `getCommits`: run the constructed command (the
oracle `execResult`, `none` for a git failure) and parse; a failed command
yields the empty list, never an exception. -/
def getCommits (opts : GetCommitsOptions) (execResult : Option String) : List GitCommit :=
  match execResult with
  | some output => parseCommitOutput output opts.format
  | none => []

/-! ### Concrete example inputs

The two example commits of the specification's testable-properties section:
`C1` with subject "feat(auth): add login" (2 files, 40 changed lines) and
`C2` with subject "fix!: remove deprecated endpoint" (120 files, 3000
changed lines including a database-category file). -/

set_option maxRecDepth 40000

/-- First file of the spec's example commit C1, classified by the embedded
pipeline. -/
def exFileAuthLogin : FileAnalysis :=
  analyzeFileChange "M" "src/auth/login.ts" (some "+const a = 1\n") (some "") (some "")

/-- Second file of the spec's example commit C1. -/
def exFileAuthSession : FileAnalysis :=
  analyzeFileChange "M" "src/auth/session.ts" (some "+const b = 2\n") (some "") (some "")

/-- The file list of example commit C1. -/
def c1ExampleFiles : List FileAnalysis := [exFileAuthLogin, exFileAuthSession]

/-- Diff statistics of example commit C1: 2 files, 40 changed lines. -/
def c1ExampleStats : DiffStats := { files := 2, insertions := 30, deletions := 10 }

/-- Subject of example commit C1. -/
def c1ExampleSubject : String := "feat(auth): add login"

/-- The `commitInfo` argument that the generator's `selectOptimalModel` builds
for example commit C1 and passes to the provider's model selection. -/
def c1ExampleInfo : CommitInfo :=
  { files := ["src/auth/login.ts", "src/auth/session.ts"], additions := 30
    deletions := 10, message := c1ExampleSubject }

/-- The file list of example commit C2: 119 source files plus one
database-category migration file. -/
def c2ExampleFiles : List FileAnalysis :=
  (List.range 119).map (fun i =>
    analyzeFileChange "M" ("src/m" ++ toString i ++ ".ts") (some "+x\n") (some "") (some ""))
    ++ [analyzeFileChange "A" "migrations/001_drop.sql"
          (some "+ALTER TABLE users DROP COLUMN x;\n") none (some "")]

/-- Diff statistics of example commit C2: 120 files, 3000 changed lines. -/
def c2ExampleStats : DiffStats := { files := 120, insertions := 2500, deletions := 500 }

/-- Subject of example commit C2. -/
def c2ExampleSubject : String := "fix!: remove deprecated endpoint"

/-- A complete `CommitAnalysis` for example commit C1, assembled the way
`getCommitAnalysis` does from the classified files. -/
def exCommitAuth : CommitAnalysis :=
  { hash := "abc1234", fullHash := "abc1234def5678", subject := c1ExampleSubject
    author := "Dev", date := "2025-01-01", body := ""
    files := c1ExampleFiles, diffStats := c1ExampleStats
    type := "feat", scope := some "auth"
    breaking := isBreakingChange c1ExampleSubject ""
    semanticAnalysis := performSemanticAnalysis c1ExampleFiles c1ExampleSubject ""
    complexity := assessOverallComplexity c1ExampleFiles c1ExampleStats
    riskAssessment := assessRisk c1ExampleFiles c1ExampleStats c1ExampleSubject "" }

/-! ### Claim-side definitions

These definitions follow the wording of spec claims (not the source); each is
compared against the source-derived embedding. -/

/-- Claimed breaking-change rule, following the spec sentence: the flag is
true exactly when the subject contains the token `!:` or the subject or body
contains the case-insensitive token `BREAKING CHANGE`. -/
def claimedBreakingChange (subject body : String) : Bool :=
  jsIncludes subject "!:" ||
  jsIncludes (jsToUpperCase subject) "BREAKING CHANGE" ||
  jsIncludes (jsToUpperCase body) "BREAKING CHANGE"

/-- Claimed release-breaking rule, following the spec sentence: some commit's
summary marked `breaking = true`. -/
def anySummaryMarkedBreaking (commits : List CommitAnalysis) : Bool :=
  commits.any (fun c =>
    match c.aiSummary with
    | some s => s.breaking == some true
    | none => false)

/-- The failure cases of the external summarization path named by the
fallback claim: the service call throws, the selected model is unavailable,
or the response is empty or not parseable JSON. -/
def externalFailure : AIOutcome → Bool
  | .noAI => false
  | .modelUnavailable => true
  | .serviceFailure => true
  | .completed _ content parsed =>
    (match content with
     | none => true
     | some c => c == "") || parsed == none

/-! ### Raw-output model and further concrete inputs -/

/-- The NUL separator used by the `-z` git log output. -/
def nulChar : Char := Char.ofNat 0

/-- Well-formedness of one raw log record with respect to the record
separator: non-empty, separator-free, and without leading or trailing
whitespace (so that the whole-output `trim` cannot eat into it). -/
def recordClean (sep : Char) (r : String) : Prop :=
  r.data ≠ [] ∧ sep ∉ r.data ∧
  r.data.head?.all (fun c => !isJsWs c) = true ∧
  r.data.getLast?.all (fun c => !isJsWs c) = true

/-- Record well-formedness is decidable, so witnesses can check it by
evaluation. -/
instance (sep : Char) (r : String) : Decidable (recordClean sep r) := by
  unfold recordClean
  infer_instance

/-- A raw log block consisting of the given records joined by the separator,
exactly as git emits them. -/
def rawLogOutput (sep : Char) (records : List String) : String :=
  String.mk ([sep].intercalate (records.map String.data))

/-- Two well-formed full-format raw records (the first has a multi-line
body, which the NUL separator must keep intact). -/
def c4Records : List String :=
  ["aaaa1111|aaaa111|feat(auth): add login|body line 1\nbody line 2|Ann|ann@x.dev|2025-01-01|2025-01-02",
   "bbbb2222|bbbb222|fix: correct y|no|Bob|bob@x.dev|2025-01-03|2025-01-04"]

/-- A minimal commit analysis used as an analysis payload in batch examples. -/
def tinyCommit : CommitAnalysis :=
  { hash := "t000001", fullHash := "t0000010000", subject := "chore: tidy"
    author := "Dev", date := "2025-01-01", body := ""
    files := [], diffStats := { files := 0, insertions := 0, deletions := 0 }
    type := "chore", scope := none, breaking := false
    semanticAnalysis := performSemanticAnalysis [] "chore: tidy" ""
    complexity := assessOverallComplexity [] { files := 0, insertions := 0, deletions := 0 }
    riskAssessment := assessRisk [] { files := 0, insertions := 0, deletions := 0 }
      "chore: tidy" "" }

/-- A per-hash analysis oracle in which exactly the commit "h04" fails. -/
def exAnalyzeBad : String → AnalysisOutcome :=
  fun hsh => if hsh = "h04" then AnalysisOutcome.errored else AnalysisOutcome.ok tinyCommit

/-- An AI summary whose `breaking` field is marked true. -/
def exAISummaryMarkedBreaking : AISummary :=
  { summary := some "remove old endpoint", technicalSummary := some "drops the v1 route"
    category := some "breaking", impact := some "high", scope := some "major"
    userFacing := some true, breaking := some true
    businessImpact := some "consumers must migrate", technicalImpact := some "route removed"
    highlights := some [], migrationNotes := some "switch to v2", tags := some []
    relatedAreas := some [], riskLevel := some "high", confidence := some (9 / 10 : ℚ) }

/-- A commit whose own breaking flag is false while its attached AI summary
is marked breaking. -/
def exCommitSummaryMismatch : CommitAnalysis :=
  { tinyCommit with aiSummary := some exAISummaryMarkedBreaking }

/-- The part of the git log command preceding the count limit. -/
def gitLogCmdBefore (opts : GetCommitsOptions) (branchExists : Bool) : String :=
  "git log" ++ (match opts.branch with
    | some b => if branchExists then " " ++ b else ""
    | none => "")

/-- The part of the git log command following the count limit. -/
def gitLogCmdAfter (opts : GetCommitsOptions) (dateParseOk : String → Bool) : String :=
  (match opts.since with
    | some s => if isValidGitDate dateParseOk s then " --since=\"" ++ s ++ "\"" else ""
    | none => "") ++
  (match opts.untilDate with
    | some u => if isValidGitDate dateParseOk u then " --until=\"" ++ u ++ "\"" else ""
    | none => "") ++
  (match opts.author with
    | some a => " --author=\"" ++ escapeGitArg a ++ "\""
    | none => "") ++
  (match opts.grep with
    | some g => " --grep=\"" ++ escapeGitArg g ++ "\""
    | none => "") ++
  (if opts.excludeMerges then " --no-merges" else "") ++
  " --pretty=format:\"" ++ formatStringFor opts.format ++ "\" --date=iso" ++
  (if opts.format = "full" || opts.format = "detailed" then " -z" else "")

/-! ### Helper lemmas -/

/-- Data of a constructed string. -/
theorem data_mk (l : List Char) : (String.mk l).data = l := rfl

/-- A string is rebuilt from its character data. -/
theorem mk_data (s : String) : String.mk s.data = s := rfl

/-- Boundary conditions extracted from an `Option.all` test. -/
theorem option_all_not_ws {o : Option Char} (h : o.all (fun c => !isJsWs c) = true) :
    ∀ c ∈ o, isJsWs c = false := by
  cases o <;> simp_all

/-- Dropping leading whitespace is the identity when the head is not
whitespace. -/
theorem dropWhile_eq_self_of_head (l : List Char) (h : ∀ c ∈ l.head?, isJsWs c = false) :
    l.dropWhile isJsWs = l := by
  rw [List.dropWhile_eq_self_iff]
  intro hl
  cases l with
  | nil => simp at hl
  | cons a t => simp at h ⊢; simpa using h

/-- Trimming is the identity on a list without boundary whitespace. -/
theorem jsTrimList_eq_self (l : List Char) (h1 : ∀ c ∈ l.head?, isJsWs c = false)
    (h2 : ∀ c ∈ l.getLast?, isJsWs c = false) : jsTrimList l = l := by
  unfold jsTrimList
  rw [dropWhile_eq_self_of_head l h1]
  rw [dropWhile_eq_self_of_head l.reverse (by rw [List.head?_reverse]; exact h2)]
  exact List.reverse_reverse l

/-- Head of an intercalation is the head of its first non-empty piece. -/
theorem head?_intercalate_sep (sep : Char) (r : List Char) (rest : List (List Char))
    (hr : r ≠ []) : ([sep].intercalate (r :: rest)).head? = r.head? := by
  cases rest with
  | nil => simp [List.intercalate]
  | cons b bs =>
    have h : [sep].intercalate (r :: b :: bs) = r ++ sep :: [sep].intercalate (b :: bs) := by
      simp [List.intercalate, List.intersperse]
    rw [h, List.head?_append_of_ne_nil _ hr]

/-- Last element of an intercalation is the last element of its final
non-empty piece. -/
theorem getLast?_intercalate_sep (sep : Char) :
    ∀ (ls : List (List Char)) (r : List Char), r ≠ [] →
      ([sep].intercalate (ls ++ [r])).getLast? = r.getLast? := by
  intro ls
  induction ls with
  | nil => intro r _; simp [List.intercalate]
  | cons b bs ih =>
    intro r hr
    obtain ⟨c, cs, hcc⟩ := List.exists_cons_of_ne_nil (l := bs ++ [r]) (by simp)
    rw [List.cons_append, hcc]
    have heq : [sep].intercalate (b :: c :: cs) = b ++ sep :: [sep].intercalate (c :: cs) := by
      simp [List.intercalate, List.intersperse]
    rw [heq, ← hcc]
    have hx := ih r hr
    have hxne : [sep].intercalate (bs ++ [r]) ≠ [] := by
      intro h0
      rw [h0] at hx
      simp at hx
      exact hr (List.getLast?_eq_none_iff.mp hx.symm)
    rw [List.getLast?_append_of_ne_nil _ (by simp)]
    obtain ⟨y, ys, hys⟩ := List.exists_cons_of_ne_nil hxne
    rw [hys, List.getLast?_cons_cons, ← hys, hx]

/-- A `filterMap` whose function succeeds everywhere preserves length. -/
theorem filterMap_length_of_isSome {α β : Type} (f : α → Option β) :
    ∀ (l : List α), (∀ a ∈ l, (f a).isSome) → (l.filterMap f).length = l.length := by
  intro l
  induction l with
  | nil => simp
  | cons a t ih =>
    intro h
    have ha := h a (by simp)
    cases hfa : f a with
    | none => rw [hfa] at ha; simp at ha
    | some b =>
      rw [List.filterMap_cons, hfa]
      simp [ih (fun x hx => h x (by simp [hx]))]

/-- A `filterMap` whose function succeeds everywhere is the corresponding
`map`. -/
theorem filterMap_eq_map_of {α β : Type} (f : α → Option β) (g : α → β) :
    ∀ (l : List α), (∀ a ∈ l, f a = some (g a)) → l.filterMap f = l.map g := by
  intro l
  induction l with
  | nil => simp
  | cons a t ih =>
    intro h
    rw [List.filterMap_cons, h a (by simp), List.map_cons,
      ih (fun x hx => h x (by simp [hx]))]

/-- On a raw block of separator-clean records, the whole-output trim is the
identity, the separator split recovers the records exactly, and the output is
non-empty. -/
theorem rawLogOutput_facts (sep : Char) (records : List String)
    (hne : records ≠ [])
    (hclean : ∀ r ∈ records, recordClean sep r) :
    jsTrim (rawLogOutput sep records) = rawLogOutput sep records ∧
    jsSplitChar (rawLogOutput sep records) sep = records ∧
    rawLogOutput sep records ≠ "" := by
  obtain ⟨r0, rest, rfl⟩ := List.exists_cons_of_ne_nil hne
  have hr0 := hclean r0 (by simp)
  have hdata : (rawLogOutput sep (r0 :: rest)).data =
      [sep].intercalate (r0.data :: rest.map String.data) := by
    simp [rawLogOutput]
  have hhead : ([sep].intercalate (r0.data :: rest.map String.data)).head? = r0.data.head? :=
    head?_intercalate_sep sep r0.data _ hr0.1
  have hlast : ∀ c ∈ ([sep].intercalate (r0.data :: rest.map String.data)).getLast?,
      isJsWs c = false := by
    rcases List.eq_nil_or_concat rest with hrest | ⟨L, b, hrest⟩
    · subst hrest
      intro c hc
      simp only [List.map_nil] at hc
      have hg := getLast?_intercalate_sep sep ([] : List (List Char)) r0.data hr0.1
      rw [List.nil_append] at hg
      rw [hg] at hc
      exact option_all_not_ws hr0.2.2.2 c hc
    · subst hrest
      intro c hc
      simp only [List.concat_eq_append] at hc hclean
      have hb := hclean b (by simp)
      have hsh : r0.data :: (L ++ [b]).map String.data =
          (r0.data :: L.map String.data) ++ [b.data] := by simp
      rw [hsh, getLast?_intercalate_sep sep _ b.data hb.1] at hc
      exact option_all_not_ws hb.2.2.2 c hc
  have htrimlist : jsTrimList ([sep].intercalate (r0.data :: rest.map String.data)) =
      [sep].intercalate (r0.data :: rest.map String.data) := by
    apply jsTrimList_eq_self
    · rw [hhead]; exact option_all_not_ws hr0.2.2.1
    · exact hlast
  have hinterne : [sep].intercalate (r0.data :: rest.map String.data) ≠ [] := by
    intro h0
    have hh := hhead
    rw [h0] at hh
    cases hd : r0.data with
    | nil => exact hr0.1 hd
    | cons a t => rw [hd] at hh; simp at hh
  refine ⟨?_, ?_, ?_⟩
  · show String.mk (jsTrimList (rawLogOutput sep (r0 :: rest)).data) = _
    rw [hdata, htrimlist, ← hdata, mk_data]
  · show ((rawLogOutput sep (r0 :: rest)).data.splitOn sep).map String.mk = _
    rw [hdata]
    rw [show r0.data :: rest.map String.data = ((r0 :: rest).map String.data) from rfl]
    rw [List.splitOn_intercalate ((r0 :: rest).map String.data) sep
      (by intro l hl
          obtain ⟨r, hr, rfl⟩ := List.mem_map.mp hl
          exact (hclean r hr).2.1)
      (by simp)]
    rw [List.map_map]
    simp [Function.comp_def, mk_data]
  · intro h0
    apply hinterne
    rw [← hdata, h0]

/-- Separator-clean records survive the blank-record filter of the NUL
branch. -/
theorem records_filter_ne_empty (records : List String) (sep : Char)
    (hclean : ∀ r ∈ records, recordClean sep r) :
    records.filter (fun s => !decide (s = "")) = records := by
  rw [List.filter_eq_self]
  intro r hr
  have h1 : r ≠ "" := fun h0 => (hclean r hr).1 (by rw [h0])
  simp [h1]

/-- Trimming is the identity on a separator-clean record. -/
theorem jsTrim_eq_self_of_clean (sep : Char) (r : String) (h : recordClean sep r) :
    jsTrim r = r := by
  show String.mk (jsTrimList r.data) = r
  rw [jsTrimList_eq_self r.data (option_all_not_ws h.2.2.1) (option_all_not_ws h.2.2.2),
    mk_data]

/-- Separator-clean records survive the blank-line filter of the newline
branch. -/
theorem records_filter_trim_ne_empty (records : List String) (sep : Char)
    (hclean : ∀ r ∈ records, recordClean sep r) :
    records.filter (fun l => !decide (jsTrim l = "")) = records := by
  rw [List.filter_eq_self]
  intro r hr
  have h1 : r ≠ "" := fun h0 => (hclean r hr).1 (by rw [h0])
  rw [jsTrim_eq_self_of_clean sep r (hclean r hr)]
  simp [h1]

/-- A full-format record with at least 8 fields parses successfully. -/
theorem parseFullLine_isSome (format r : String)
    (h : 8 ≤ (jsSplitChar r '|').length) : (parseFullLine format r).isSome := by
  unfold parseFullLine
  rw [if_neg (by omega)]
  rfl

/-- A simple-format record with at least 4 fields parses successfully. -/
theorem parseSimpleLine_isSome (r : String)
    (h : 4 ≤ (jsSplitChar r '|').length) : (parseSimpleLine r).isSome := by
  unfold parseSimpleLine
  rw [if_neg (by omega)]
  rfl

/-- The batched commit processing is exactly a `filterMap` over the input
hashes: per-item capture, no reordering, no batch-wide abort. -/
theorem generateChangelogBatch_eq_filterMap (analyze : String → AnalysisOutcome) :
    ∀ (commitHashes : List String),
      generateChangelogBatch analyze commitHashes =
        commitHashes.filterMap (fun hsh => settledValue (analyze hsh)) := by
  have key : ∀ (n : Nat) (hashes : List String), hashes.length ≤ n →
      generateChangelogBatch analyze hashes =
        hashes.filterMap (fun hsh => settledValue (analyze hsh)) := by
    intro n
    induction n with
    | zero =>
      intro hashes h
      have h0 : hashes = [] := List.eq_nil_of_length_eq_zero (Nat.le_zero.mp h)
      subst h0
      rw [generateChangelogBatch]
      simp
    | succ n ih =>
      intro hashes h
      rw [generateChangelogBatch]
      by_cases hn : hashes = []
      · simp [hn]
      · simp only [hn, dite_false]
        rw [ih (hashes.drop 10) (by
          rw [List.length_drop]
          have : hashes.length ≠ 0 := fun h0 => hn (List.eq_nil_of_length_eq_zero h0)
          omega)]
        rw [← List.filterMap_append, List.take_append_drop]
  intro hashes
  exact key hashes.length hashes le_rfl

/-- The per-commit insights step ors the commit's breaking flag into the
accumulator. -/
theorem releaseInsightsStep_breaking (acc : ReleaseInsights) (c : CommitAnalysis) :
    (releaseInsightsStep acc c).breaking = (acc.breaking || c.breaking) := by
  unfold releaseInsightsStep
  cases hb : c.breaking <;> split_ifs <;> simp_all

/-- Folding the insights step ors all commit breaking flags together. -/
theorem foldl_insightsStep_breaking :
    ∀ (commits : List CommitAnalysis) (acc : ReleaseInsights),
      (List.foldl releaseInsightsStep acc commits).breaking =
        (acc.breaking || commits.any (fun c => c.breaking)) := by
  intro commits
  induction commits with
  | nil => intro acc; simp
  | cons c cs ih =>
    intro acc
    rw [List.foldl_cons, ih, releaseInsightsStep_breaking]
    simp [Bool.or_assoc]

/-! ### Claim theorems -/

/-- Claim C1, counterexample: when the selected model is unavailable,
`generateAISummary` does fall back to the rule-based summary, but contrary to
the claim the failure is not counted in `metrics.errors` (starting from zero
errors, the counter stays at zero instead of becoming one). -/
theorem C1_model_unavailable_uncounted :
    (generateAISummary exCommitAuth AIOutcome.modelUnavailable metricsZero).1 =
      generateRuleBasedSummary exCommitAuth ∧
    ¬((generateAISummary exCommitAuth AIOutcome.modelUnavailable metricsZero).2.errors =
      metricsZero.errors + 1) := by
  constructor
  · rfl
  · decide

/-- Claim C1, amended: on every external summarization failure (service call
throws, response empty or not parseable JSON, or the selected model is
unavailable) `generateAISummary` returns the rule-based summary, which is a
structurally complete `AISummary`; the error is counted in `metrics.errors`
for thrown exceptions and parse/content failures, while the model-unavailable
check falls back without incrementing the counter; no failure is re-raised
(the embedding returns a value in every case). -/
theorem C1_external_failure_fallback (a : CommitAnalysis) (m : Metrics)
    (outcome : AIOutcome) (h : externalFailure outcome = true) :
    (generateAISummary a outcome m).1 = generateRuleBasedSummary a ∧
    aiSummaryComplete ((generateAISummary a outcome m).1) = true ∧
    (generateAISummary a outcome m).2.errors =
      (if outcome = AIOutcome.modelUnavailable then m.errors else m.errors + 1) := by
  have hcomp : aiSummaryComplete (generateRuleBasedSummary a) = true := by
    simp [aiSummaryComplete, generateRuleBasedSummary]
  cases outcome with
  | noAI => simp [externalFailure] at h
  | modelUnavailable => simp [generateAISummary, hcomp]
  | serviceFailure => simp [generateAISummary, hcomp, incErrors]
  | completed tokens content parsed =>
    simp only [externalFailure, Bool.or_eq_true] at h
    cases content with
    | none => simp [generateAISummary, hcomp, incErrors]
    | some c =>
      by_cases hc : c = ""
      · subst hc
        simp [generateAISummary, hcomp, incErrors]
      · have hp : parsed = none := by
          rcases h with h | h
          · simp [hc] at h
          · simpa using h
        subst hp
        simp [generateAISummary, parseAIResponse, hcomp, incErrors, hc]

/-- Witness for the amended claim C1 at the service-failure outcome on the
example commit. -/
theorem C1_external_failure_fallback_witness :
    externalFailure AIOutcome.serviceFailure = true ∧
    ((generateAISummary exCommitAuth AIOutcome.serviceFailure metricsZero).1 =
        generateRuleBasedSummary exCommitAuth ∧
      aiSummaryComplete
        ((generateAISummary exCommitAuth AIOutcome.serviceFailure metricsZero).1) = true ∧
      (generateAISummary exCommitAuth AIOutcome.serviceFailure metricsZero).2.errors =
        (if AIOutcome.serviceFailure = AIOutcome.modelUnavailable then metricsZero.errors
         else metricsZero.errors + 1)) :=
  ⟨by decide,
    C1_external_failure_fallback exCommitAuth metricsZero AIOutcome.serviceFailure (by decide)⟩

/-- Claim C2, counterexample: for the spec's example commit C1 (subject
"feat(auth): add login", 2 files, 40 changed lines) the engine classifies
complexity as "minimal" (score 0), not "low", and risk as "low-medium"
(the subject's "auth" substring fires the security keyword, +3), not
"low". -/
theorem C2_example_low_misclassified :
    (assessOverallComplexity c1ExampleFiles c1ExampleStats).level = "minimal" ∧
    (assessOverallComplexity c1ExampleFiles c1ExampleStats).level ≠ "low" ∧
    (assessRisk c1ExampleFiles c1ExampleStats c1ExampleSubject "").level = "low-medium" ∧
    (assessRisk c1ExampleFiles c1ExampleStats c1ExampleSubject "").level ≠ "low" := by
  decide

/-- Claim C2, amended: the example commit C1 is classified complexity
"minimal" and risk "low-medium" with the cheapest (nano) tier selected for
every model configuration and provider, and the example commit C2 (subject
"fix!: remove deprecated endpoint", 120 files, 3000 changed lines with a
database-category file) is classified complexity "very high" and risk
"critical" with riskAssessment.score = 10 ≥ 10 (breaking +5, database +3,
large-scale +2). -/
theorem C2_example_classification :
    (assessOverallComplexity c1ExampleFiles c1ExampleStats).level = "minimal" ∧
    (assessRisk c1ExampleFiles c1ExampleStats c1ExampleSubject "").level = "low-medium" ∧
    (∀ (cfg : ModelConfig) (provider : String),
      selectModelForCommit cfg provider c1ExampleInfo = cfg.nano) ∧
    (assessOverallComplexity c2ExampleFiles c2ExampleStats).level = "very high" ∧
    (assessRisk c2ExampleFiles c2ExampleStats c2ExampleSubject "").level = "critical" ∧
    10 ≤ (assessRisk c2ExampleFiles c2ExampleStats c2ExampleSubject "").score := by
  refine ⟨by decide, by decide, ?_, by decide, by decide, by decide⟩
  intro cfg provider
  rfl

/-- Claim C3, counterexample: the subject "breaking news" contains neither
the token `!:` nor the case-insensitive token `BREAKING CHANGE`, so by the
claim the flag should be false, but `isBreakingChange` returns true (the
source tests the subject for the bare word `BREAKING`, case-insensitively). -/
theorem C3_breaking_token_mismatch :
    isBreakingChange "breaking news" "" = true ∧
    claimedBreakingChange "breaking news" "" = false := by
  decide

/-- Claim C3, amended: for a non-empty subject, the breaking flag is true
exactly when the subject contains `!:`, or the subject contains the
case-insensitive word `BREAKING`, or the body contains the literal token
`BREAKING CHANGE:` or `BREAKING-CHANGE:`, or the body contains the
case-insensitive token `BREAKING CHANGE`; for an empty subject the flag is
false regardless of the body. -/
theorem C3_breaking_characterization (s b : String) :
    isBreakingChange s b = true ↔
      (s ≠ "" ∧
        ("!:".data <:+: s.data ∨
         "BREAKING".data <:+: s.data.map Char.toUpper ∨
         "BREAKING CHANGE:".data <:+: b.data ∨
         "BREAKING-CHANGE:".data <:+: b.data ∨
         "BREAKING CHANGE".data <:+: b.data.map Char.toUpper)) := by
  unfold isBreakingChange jsIncludes containsList jsToUpperCase
  by_cases hs : s = ""
  · simp [hs]
  · simp [hs, data_mk]
    tauto

/-- Claim C4: for a raw log block made of K separator-clean records, the
parser returns exactly the per-record parses in input order (so K records
when every record has at least the expected number of fields for its format:
8 for full, 4 for simple); a record with fewer fields maps to null and is
filtered out without failing the whole parse, which the filterMap form
expresses. -/
theorem C4_parser_totality (records : List String) (hne : records ≠ []) :
    ((∀ r ∈ records, recordClean nulChar r) →
      parseCommitOutput (rawLogOutput nulChar records) "full" =
          records.filterMap (parseFullLine "full") ∧
        ((∀ r ∈ records, 8 ≤ (jsSplitChar r '|').length) →
          (parseCommitOutput (rawLogOutput nulChar records) "full").length =
            records.length)) ∧
    ((∀ r ∈ records, recordClean '\n' r) →
      parseCommitOutput (rawLogOutput '\n' records) "simple" =
          records.filterMap parseSimpleLine ∧
        ((∀ r ∈ records, 4 ≤ (jsSplitChar r '|').length) →
          (parseCommitOutput (rawLogOutput '\n' records) "simple").length =
            records.length)) := by
  constructor
  · intro hclean
    obtain ⟨htrim, hsplit, hneq⟩ := rawLogOutput_facts nulChar records hne hclean
    have hsplit2 : jsSplitChar (rawLogOutput nulChar records) (Char.ofNat 0) = records :=
      hsplit
    have hmain : parseCommitOutput (rawLogOutput nulChar records) "full" =
        records.filterMap (parseFullLine "full") := by
      unfold parseCommitOutput
      rw [htrim, if_neg hneq]
      simp [hsplit2, records_filter_ne_empty records nulChar hclean]
    refine ⟨hmain, ?_⟩
    intro hfields
    rw [hmain]
    exact filterMap_length_of_isSome _ records
      (fun r hr => parseFullLine_isSome "full" r (hfields r hr))
  · intro hclean
    obtain ⟨htrim, hsplit, hneq⟩ := rawLogOutput_facts '\n' records hne hclean
    have hmain : parseCommitOutput (rawLogOutput '\n' records) "simple" =
        records.filterMap parseSimpleLine := by
      unfold parseCommitOutput
      rw [htrim, if_neg hneq]
      simp [hsplit, records_filter_trim_ne_empty records '\n' hclean]
    refine ⟨hmain, ?_⟩
    intro hfields
    rw [hmain]
    exact filterMap_length_of_isSome _ records
      (fun r hr => parseSimpleLine_isSome r (hfields r hr))

/-- Witness for claim C4 on two concrete full-format records, one with a
multi-line body. -/
theorem C4_parser_totality_witness :
    parseCommitOutput (rawLogOutput nulChar c4Records) "full" =
      c4Records.filterMap (parseFullLine "full") ∧
    (parseCommitOutput (rawLogOutput nulChar c4Records) "full").length = 2 := by
  have h := (C4_parser_totality c4Records (by decide)).1 (by decide)
  refine ⟨h.1, ?_⟩
  rw [h.2 (by decide)]
  rfl

/-- Claim C5, counterexample: for a binary file whose diff is unavailable the
classifier's complexity score is 1 (the minimal bucket), not 0 as the claim
states. -/
theorem C5_binary_score_not_zero :
    (analyzeFileChange "M" "assets/logo.png" none none none).complexity = 1 ∧
    (analyzeFileChange "M" "assets/logo.png" none none none).complexity ≠ 0 := by
  decide

/-- Claim C5, amended: for every file change whose diff is absent, empty, or
the binary/unavailable marker, `analyzeFileChange` produces a well-formed
record whose semantic analysis is the empty analysis (no patterns, no
frameworks) and whose complexity score is 1; the classification is a total
function, so no input can raise an error that aborts sibling files. -/
theorem C5_binary_classification (status filePath : String)
    (diffR beforeR afterR : Option String)
    (h : diffR = none ∨ diffR = some "" ∨ diffR = some binaryDiffMarker) :
    (analyzeFileChange status filePath diffR beforeR afterR).complexity = 1 ∧
    (analyzeFileChange status filePath diffR beforeR afterR).semanticChanges =
      emptySemanticChanges ∧
    (analyzeFileChange status filePath diffR beforeR afterR).semanticChanges.patterns = [] := by
  have hsem : ∀ p, analyzeSemanticChanges binaryDiffMarker p = emptySemanticChanges := by
    intro p
    unfold analyzeSemanticChanges
    simp
  have hsem0 : ∀ p, analyzeSemanticChanges "" p = emptySemanticChanges := by
    intro p
    unfold analyzeSemanticChanges
    simp
  rcases h with rfl | rfl | rfl <;>
    simp [analyzeFileChange, assessChangeComplexity, hsem, hsem0, emptySemanticChanges]

/-- Witness for the amended claim C5 at a concrete binary file. -/
theorem C5_binary_classification_witness :
    (analyzeFileChange "M" "img/icon.svg" none none none).complexity = 1 ∧
    (analyzeFileChange "M" "img/icon.svg" none none none).semanticChanges =
      emptySemanticChanges ∧
    (analyzeFileChange "M" "img/icon.svg" none none none).semanticChanges.patterns = [] :=
  C5_binary_classification "M" "img/icon.svg" none none none (Or.inl rfl)

/-- Claim C6: making `isBreakingChange` true while leaving the files and diff
statistics unchanged never decreases `assessRisk`'s score: the breaking
factor adds 5 while the only other subject/body-dependent factor (security
keywords) adds at most 3. -/
theorem C6_risk_monotonic (files : List FileAnalysis) (diffStats : DiffStats)
    (s b s2 b2 : String) (h1 : isBreakingChange s b = false)
    (h2 : isBreakingChange s2 b2 = true) :
    (assessRisk files diffStats s b).score ≤ (assessRisk files diffStats s2 b2).score := by
  simp only [assessRisk, h1, h2]
  split_ifs <;> simp_all <;> omega

/-- Witness for claim C6: adding `!:` to a subject. -/
theorem C6_risk_monotonic_witness :
    isBreakingChange "feat: add greeting" "" = false ∧
    isBreakingChange "feat!: add greeting" "" = true ∧
    (assessRisk [] ⟨1, 1, 0⟩ "feat: add greeting" "").score ≤
      (assessRisk [] ⟨1, 1, 0⟩ "feat!: add greeting" "").score :=
  ⟨by decide, by decide,
    C6_risk_monotonic [] ⟨1, 1, 0⟩ "feat: add greeting" "" "feat!: add greeting" ""
      (by decide) (by decide)⟩

/-- Claim C7: if exactly one commit's analysis fails (its settled outcome is
a rejection) and every other commit's analysis succeeds, the batch processing
returns exactly the successful analyses, in order — one failure never aborts
its batch.  The statement covers the failing commit at any position in any
batch of the fixed-size-10 chunking. -/
theorem C7_batch_isolation (analyze : String → AnalysisOutcome)
    (xs ys : List String) (bad : String) (g : String → CommitAnalysis)
    (hbad : analyze bad = AnalysisOutcome.errored)
    (hok : ∀ hsh ∈ xs ++ ys, analyze hsh = AnalysisOutcome.ok (g hsh)) :
    generateChangelogBatch analyze (xs ++ bad :: ys) = (xs ++ ys).map g := by
  rw [generateChangelogBatch_eq_filterMap]
  rw [List.filterMap_append, List.filterMap_cons, hbad]
  show xs.filterMap _ ++ ys.filterMap _ = _
  rw [filterMap_eq_map_of _ (fun hsh => g hsh) xs
      (fun x hx => by rw [hok x (by simp [hx])]; rfl),
    filterMap_eq_map_of _ (fun hsh => g hsh) ys
      (fun y hy => by rw [hok y (by simp [hy])]; rfl),
    ← List.map_append]

/-- Witness for claim C7: a 10-commit batch in which the fourth commit
errors and the other nine succeed. -/
theorem C7_batch_isolation_witness :
    exAnalyzeBad "h04" = AnalysisOutcome.errored ∧
    (∀ hsh ∈ (["h01", "h02", "h03"] ++
        ["h05", "h06", "h07", "h08", "h09", "h10"] : List String),
      exAnalyzeBad hsh = AnalysisOutcome.ok ((fun _ => tinyCommit) hsh)) ∧
    generateChangelogBatch exAnalyzeBad
        (["h01", "h02", "h03"] ++ "h04" :: ["h05", "h06", "h07", "h08", "h09", "h10"]) =
      (["h01", "h02", "h03"] ++
        ["h05", "h06", "h07", "h08", "h09", "h10"]).map (fun _ => tinyCommit) :=
  ⟨by decide, by decide,
    C7_batch_isolation exAnalyzeBad ["h01", "h02", "h03"]
      ["h05", "h06", "h07", "h08", "h09", "h10"] "h04" (fun _ => tinyCommit)
      (by decide) (by decide)⟩

/-- Claim C8: the batched processing equals a `filterMap` over the input hash
list, so the analyzed commits appear in exactly the relative order of the
input hashes and the successful analyses form an order-preserving
subsequence; the embedding reflects that `Promise.allSettled` fulfills in
input order regardless of asynchronous completion order. -/
theorem C8_ordering_preserved (analyze : String → AnalysisOutcome)
    (commitHashes : List String) :
    generateChangelogBatch analyze commitHashes =
      commitHashes.filterMap (fun hsh => settledValue (analyze hsh)) :=
  generateChangelogBatch_eq_filterMap analyze commitHashes

/-- Claim C9, counterexample: a commit whose own breaking flag is false but
whose attached AI summary is marked breaking.  Some commit's summary is
marked breaking, yet the release insights' breaking flag stays false,
contradicting the claim — the source tests `commit.breaking`, not the
summary. -/
theorem C9_summary_breaking_ignored :
    anySummaryMarkedBreaking [exCommitSummaryMismatch] = true ∧
    (generateReleaseInsights [exCommitSummaryMismatch]).breaking = false := by
  constructor
  · decide
  · decide

/-- Claim C9, amended: the release-level breaking flag is true exactly when
some commit's own breaking flag (computed by `isBreakingChange` from its
subject and body) is true; the AI summary's breaking field is not
consulted. -/
theorem C9_release_breaking_flag (commits : List CommitAnalysis) :
    (generateReleaseInsights commits).breaking = commits.any (fun c => c.breaking) := by
  unfold generateReleaseInsights
  simp [foldl_insightsStep_breaking]

/-- Claim C10: for every positive requested count, the constructed git log
command contains the limit argument ` -min(n, 1000)`, and that limit never
exceeds 1000.  (That the returned list then has at most 1000 entries follows
from git's documented `-<number>` semantics, which belong to the external
collaborator.) -/
theorem C10_count_capped (opts : GetCommitsOptions) (branchExists : Bool)
    (dateParseOk : String → Bool) (h : 0 < opts.count) :
    buildGitLogCommand opts branchExists dateParseOk =
      gitLogCmdBefore opts branchExists ++ (" -" ++ toString (min opts.count 1000)) ++
        gitLogCmdAfter opts dateParseOk ∧
    min opts.count 1000 ≤ 1000 := by
  constructor
  · unfold buildGitLogCommand gitLogCmdBefore gitLogCmdAfter
    rw [if_pos h]
    simp [String.append_assoc]
  · exact Nat.min_le_right _ _

/-- Witness for claim C10 at a requested count of 5000, which is capped to
1000. -/
theorem C10_count_capped_witness :
    0 < ({ count := 5000 } : GetCommitsOptions).count ∧
    (buildGitLogCommand { count := 5000 } true (fun _ => false) =
      gitLogCmdBefore { count := 5000 } true ++ (" -" ++ toString (min 5000 1000)) ++
        gitLogCmdAfter { count := 5000 } (fun _ => false) ∧
      min 5000 1000 ≤ 1000) :=
  ⟨by decide, C10_count_capped { count := 5000 } true (fun _ => false) (by decide)⟩
